import Mathlib

/- Verification of the simplestruct record engine: a shallow embedding of
src/simplestruct/struct.py, src/simplestruct/fields.py and
src/simplestruct/type.py, followed by theorems about the embedded code.

Modelling conventions:
* Python values are the inductive `Value`; a `Struct` instance is
  `Value.vinst clsName dict` where `dict` is the instance `__dict__` as an
  association list in insertion order (CPython dict order).
* Machine-level hash values of non-Struct builtins are an explicit
  environment parameter (CPython's `hash` builtin); `Struct.__hash__` itself
  is embedded from the source.
* Exceptions are `Except PyErr`; `raise X from Y` chains `Y` as the cause.
* Object identity (`is`) is not representable in a structural model; the
  identity short-circuits in `__eq__` are noted where they are omitted.
  They only ever apply to one and the same object in memory.
-/

namespace SimpleStruct

/-- Python runtime values, restricted to the types the engine manipulates.
`vgen` is a one-shot generator object (iterable, `len` fails);
`vinst` is a `Struct` instance: its class name and its `__dict__`. -/
inductive Value where
  | vint : Int → Value
  | vbool : Bool → Value
  | vstr : String → Value
  | vnone : Value
  | vtuple : List Value → Value
  | vlist : List Value → Value
  | vgen : List Value → Value
  | vinst : String → List (String × Value) → Value

/-- Python exceptions raised by the engine. `typeError msg cause` carries the
`__cause__` set by `raise ... from cause` (`none` for a plain raise and for
`from None`). -/
inductive PyErr where
  | typeError : String → Option PyErr → PyErr
  | attributeError : String → PyErr
  | valueError : String → PyErr
  | keyError : String → PyErr
  | recursionError : PyErr

/-- A `Struct` instance as manipulated by the lifecycle code: its class name
and its `__dict__` (which also holds the `_initialized` marker, exactly as
`Struct.__new__` stores it). -/
structure Obj where
  clsName : String
  dict : List (String × Value)

def Obj.toVal (o : Obj) : Value := Value.vinst o.clsName o.dict

/-- `d[n]` for an instance `__dict__`: first binding of `n`. -/
def lookupV : List (String × Value) → String → Option Value
  | [], _ => none
  | (k, v) :: rest, n => if k = n then some v else lookupV rest n

/-- `d[n] = v` on a CPython dict: an existing key keeps its position, a new
key is appended at the end. -/
def dictSet : List (String × Value) → String → Value → List (String × Value)
  | [], n, v => [(n, v)]
  | (k, w) :: rest, n, v =>
      if k = n then (k, v) :: rest else (k, w) :: dictSet rest n v

/-- The runtime types a field kind can name. `tObject` is `object` (the
"accept anything" kind `normalize_kind` produces for `None`). -/
inductive Ty where
  | tInt
  | tBool
  | tStr
  | tTuple
  | tList
  | tNoneType
  | tObject
  | tStruct : String → Ty
deriving DecidableEq

/-- The constraint data of a `TypedField` (fields.py): the normalized kind
tuple and the `seq`/`unique`/`or_none` flags. -/
structure TypedInfo where
  kind : List Ty
  seq : Bool
  unique : Bool
  orNone : Bool

/-- One schema slot: a `Field` descriptor after `MetaStruct` has copied it
and assigned its name. `typed = none` is a plain `Field`; `typed = some ti`
is a `TypedField`. `eqS`/`hashS` model subclass overrides of `Field.eq` and
`Field.hash` (`none` = the default, native `==` and `hash`). -/
structure FieldDesc where
  name : String
  default : Option Value
  typed : Option TypedInfo
  eqS : Option (Value → Value → Bool)
  hashS : Option (Value → Nat)

/-- A compiled Struct class: `fields` is `_struct` (schema order),
`immutable` is the `_immutable` class attribute, `visibleFields` are all
field descriptors reachable through the class and its bases (attribute
lookup order), `ancestors` is the MRO as class names (self first), and
`hook` is the user-defined `__init__`, fed the instance and the bound
arguments; it can only mutate the instance `__dict__` (Python's `__init__`
cannot change `type(self)`), so it returns the new `__dict__`. -/
structure StructType where
  name : String
  immutable : Bool
  fields : List FieldDesc
  visibleFields : List FieldDesc
  ancestors : List String
  hook : Option (Obj → List (String × Value) → Except PyErr (List (String × Value)))

/-- The process-wide table of declared Struct classes, keyed by name. -/
def CT := List (String × StructType)

def ctFind : CT → String → Option StructType
  | [], _ => none
  | (k, c) :: rest, n => if k = n then some c else ctFind rest n

/-- `_struct` of the named class (`[]` when the class is unknown, a case no
reachable state produces). -/
def fieldsOf (ct : CT) (cn : String) : List FieldDesc :=
  match ctFind ct cn with
  | some c => c.fields
  | none => []

theorem sizeOf_lookupV {d : List (String × Value)} {n : String} {v : Value}
    (h : lookupV d n = some v) : sizeOf v < sizeOf d := by
  induction d with
  | nil => simp [lookupV] at h
  | cons p rest ih =>
      obtain ⟨k, w⟩ := p
      by_cases hk : k = n
      · simp [lookupV, hk] at h
        subst h
        simp
        omega
      · simp [lookupV, hk] at h
        have := ih h
        simp
        omega

mutual

/-- Python `==` over our value universe. Builtin cases follow CPython
(`bool` compares as an `int`; containers compare elementwise; a generator
compares by identity, hence `false` between distinct objects); the `vinst`
case is `Struct.__eq__` (struct.py lines 243-259) collapsed through the
rich-comparison protocol: equal types compare field-wise with each field's
`eq`, different types return `NotImplemented` on both sides and Python then
falls back to identity, i.e. `false`. The `self is other` short-circuit of
line 248 concerns only one single object in memory and is omitted. -/
def pyEq (ct : CT) : Value → Value → Bool
  | .vint a, .vint b => a == b
  | .vint a, .vbool b => a == (if b then 1 else 0)
  | .vbool a, .vint b => (if a then (1 : Int) else 0) == b
  | .vbool a, .vbool b => a == b
  | .vstr a, .vstr b => a == b
  | .vnone, .vnone => true
  | .vtuple l1, .vtuple l2 => pyEqList ct l1 l2
  | .vlist l1, .vlist l2 => pyEqList ct l1 l2
  | .vinst cn1 d1, .vinst cn2 d2 =>
      if cn1 = cn2 then pyEqFields ct d1 d2 (fieldsOf ct cn1) else false
  | _, _ => false
termination_by v _ => (sizeOf v, 0)

/-- Elementwise `==` of two builtin sequences (same length required). -/
def pyEqList (ct : CT) : List Value → List Value → Bool
  | [], [] => true
  | a :: as1, b :: bs1 => pyEq ct a b && pyEqList ct as1 bs1
  | _, _ => false
termination_by l _ => (sizeOf l, 0)

/-- `all(f.eq(getattr(self, f.name), getattr(other, f.name)) for f in
self._struct)` (struct.py lines 258-259): each field compared through its
`eq`, the default being native `==`. A missing attribute would raise in
Python and cannot occur on a constructed instance; it yields `false` here. -/
def pyEqFields (ct : CT) (d1 d2 : List (String × Value)) : List FieldDesc → Bool
  | [] => true
  | f :: rest =>
      (match h1 : lookupV d1 f.name, lookupV d2 f.name with
       | some v1, some v2 =>
          (match f.eqS with
           | some g => g v1 v2
           | none => pyEq ct v1 v2)
       | _, _ => false)
      && pyEqFields ct d1 d2 rest
termination_by fl => (sizeOf d1, fl.length + 1)
decreasing_by
  · exact Prod.Lex.left _ _ (sizeOf_lookupV h1)
  · exact Prod.Lex.right _ (by simp)

end

/-- `Field.eq` as configured for a slot: the subclass override when there is
one, else native `==` (struct.py lines 75-77). -/
def fieldEqFn (ct : CT) (f : FieldDesc) (v1 v2 : Value) : Bool :=
  match f.eqS with
  | some g => g v1 v2
  | none => pyEq ct v1 v2

/-- `iter(v)` succeeding together with `len(v)`: the element list when `v`
is a sized iterable, `none` otherwise. A generator supports `iter` but not
`len`; a Struct instance supports both (`__iter__`/`__len__`, struct.py
lines 271-275, yield the field values in schema order); a string iterates
its characters. A missing field attribute would raise in Python and cannot
occur on a constructed instance; it yields `None` here. -/
def iterLen (ct : CT) : Value → Option (List Value)
  | .vstr s => some (s.toList.map fun c => .vstr (String.singleton c))
  | .vtuple l => some l
  | .vlist l => some l
  | .vinst cn d => some ((fieldsOf ct cn).map fun f => (lookupV d f.name).getD .vnone)
  | _ => none

/-- Plain `iter(v)`: also accepts a generator (used by `tuple(value)` in
`TypedField.normalize`). -/
def iterElems (ct : CT) : Value → Option (List Value)
  | .vgen l => some l
  | v => iterLen ct v

/-- `isinstance(v, t)`: subclass-inclusive, so a `bool` satisfies `int`
(CPython's numeric subtyping, relied on by the repo's tests) and a Struct
instance satisfies any class in its MRO. -/
def isinst (ct : CT) (v : Value) (t : Ty) : Bool :=
  match t with
  | .tObject => true
  | .tInt => match v with | .vint _ => true | .vbool _ => true | _ => false
  | .tBool => match v with | .vbool _ => true | _ => false
  | .tStr => match v with | .vstr _ => true | _ => false
  | .tTuple => match v with | .vtuple _ => true | _ => false
  | .tList => match v with | .vlist _ => true | _ => false
  | .tNoneType => match v with | .vnone => true | _ => false
  | .tStruct n =>
      match v with
      | .vinst cn _ =>
          match ctFind ct cn with
          | some c => c.ancestors.contains n
          | none => false
      | _ => false

/-- `isinstance(val, kind)` for a kind tuple: any member accepts. -/
def isinstKind (ct : CT) (v : Value) (kind : List Ty) : Bool :=
  kind.any (isinst ct v)

def tyName : Ty → String
  | .tInt => "int"
  | .tBool => "bool"
  | .tStr => "str"
  | .tTuple => "tuple"
  | .tList => "list"
  | .tNoneType => "NoneType"
  | .tObject => "object"
  | .tStruct n => n

/-- `TypeChecker.str_kind` (type.py lines 44-53). -/
def str_kind (kind : List Ty) : String :=
  match kind with
  | [] => "Nothing"
  | [t] => tyName t
  | [t1, t2] => tyName t1 ++ " or " ++ tyName t2
  | _ => "one of \x7b" ++ String.intercalate ", " (kind.map tyName) ++ "\x7d"

/-- `TypeChecker.str_valtype` (type.py lines 25-29). -/
def str_valtype : Value → String
  | .vnone => "None"
  | .vint _ => "int"
  | .vbool _ => "bool"
  | .vstr _ => "str"
  | .vtuple _ => "tuple"
  | .vlist _ => "list"
  | .vgen _ => "generator"
  | .vinst cn _ => cn

/-- Python truthiness. A Struct instance has no `__bool__` but defines
`__len__`, so its truth value is `len(self._struct) != 0`. -/
def pyTruthy (ct : CT) : Value → Bool
  | .vbool b => b
  | .vint n => n != 0
  | .vstr s => s != ""
  | .vnone => false
  | .vtuple l => !l.isEmpty
  | .vlist l => !l.isEmpty
  | .vgen _ => true
  | .vinst cn _ => !(fieldsOf ct cn).isEmpty

/-- `TypeChecker.checktype` (type.py lines 55-59). -/
def checktype (ct : CT) (v : Value) (kind : List Ty) : Except PyErr Unit :=
  if isinstKind ct v kind then .ok ()
  else .error (.typeError ("Expected " ++ str_kind kind ++ "; got " ++ str_valtype v) none)

mutual

/-- Python `repr`. The `vinst` case is `Struct.__repr__` =
`_fmt_helper(repr)` (struct.py lines 229-241): `Name(f1=repr1, ...)` in
schema order. `reprlib.recursive_repr`'s ellipsis guard only triggers on
cyclic objects, which the inductive value universe cannot contain, so it is
not modelled. -/
def pyRepr (ct : CT) : Value → String
  | .vint n => toString n
  | .vbool b => if b then "True" else "False"
  | .vstr s => "'" ++ s ++ "'"
  | .vnone => "None"
  | .vtuple [] => "()"
  | .vtuple [a] => "(" ++ pyRepr ct a ++ ",)"
  | .vtuple (a :: b :: rest) => "(" ++ pyRepr ct a ++ pyReprList ct (b :: rest) ++ ")"
  | .vlist [] => "[]"
  | .vlist (a :: rest) => "[" ++ pyRepr ct a ++ pyReprList ct rest ++ "]"
  | .vgen _ => "<generator>"
  | .vinst cn d => cn ++ "(" ++ (pyReprFields ct d (fieldsOf ct cn)).drop 2 ++ ")"
termination_by v => (sizeOf v, 0)

/-- Remaining container elements, each preceded by the `, ` separator. -/
def pyReprList (ct : CT) : List Value → String
  | [] => ""
  | a :: rest => ", " ++ pyRepr ct a ++ pyReprList ct rest
termination_by l => (sizeOf l, 0)

/-- `', '.join('{}={}'.format(f.name, fmt(getattr(self, f.name))) ...)` with
`fmt = repr`; every piece carries a leading `, ` which the caller drops. -/
def pyReprFields (ct : CT) (d : List (String × Value)) : List FieldDesc → String
  | [] => ""
  | f :: rest =>
      ", " ++ f.name ++ "=" ++
        (match h1 : lookupV d f.name with
         | some v => pyRepr ct v
         | none => "None") ++
        pyReprFields ct d rest
termination_by fl => (sizeOf d, fl.length + 1)
decreasing_by
  · exact Prod.Lex.left _ _ (sizeOf_lookupV h1)
  · exact Prod.Lex.right _ (by simp)

end

mutual

/-- Python `str`. `Struct.__str__` = `_fmt_helper(str)` recurses with `str`
on the field values; all other builtins print as their `repr` (a string
prints bare, and `str` of a container shows its elements' `repr`s, which
`pyRepr` already implements). -/
def pyStr (ct : CT) : Value → String
  | .vstr s => s
  | .vinst cn d => cn ++ "(" ++ (pyStrFields ct d (fieldsOf ct cn)).drop 2 ++ ")"
  | v => pyRepr ct v
termination_by v => (sizeOf v, 0)

/-- Field rendering for `__str__`, leading-separator form as in
`pyReprFields`. -/
def pyStrFields (ct : CT) (d : List (String × Value)) : List FieldDesc → String
  | [] => ""
  | f :: rest =>
      ", " ++ f.name ++ "=" ++
        (match h1 : lookupV d f.name with
         | some v => pyStr ct v
         | none => "None") ++
        pyStrFields ct d rest
termination_by fl => (sizeOf d, fl.length + 1)
decreasing_by
  · exact Prod.Lex.left _ _ (sizeOf_lookupV h1)
  · exact Prod.Lex.right _ (by simp)

end

/-- `hash_seq` (struct.py lines 17-19): left xor-fold of the hash values,
seeded at 0. -/
def hash_seq (seq : List Nat) : Nat := seq.foldl (fun x y => x ^^^ y) 0

mutual

/-- Python `hash`. The `vinst` case is `Struct.__hash__` (struct.py lines
261-269): raise for a mutable class (`self._immutable` read through the
instance, so an instance binding shadows the class attribute), raise when
`self._initialized` is not yet truthy, else xor-fold the per-field hashes.
For every non-Struct value the builtin hash is the environment parameter
`h` (partial: e.g. CPython rejects lists). -/
def pyHashE (ct : CT) (h : Value → Except PyErr Nat) : Value → Except PyErr Nat
  | .vinst cn d =>
      match ctFind ct cn with
      | none => .error (.typeError ("unknown class " ++ cn) none)
      | some c =>
          let imm := match lookupV d "_immutable" with
                     | some w => pyTruthy ct w
                     | none => c.immutable
          if !imm then .error (.typeError ("Cannot hash mutable Struct " ++ cn) none)
          else
            match lookupV d "_initialized" with
            | none => .error (.attributeError "_initialized")
            | some iv =>
                if !pyTruthy ct iv then
                  .error (.typeError ("Cannot hash uninitialized Struct " ++ cn) none)
                else (hashFields ct h d c.fields).map hash_seq
  | v => h v
termination_by v => (sizeOf v, 0)

/-- `(f.hash(getattr(self, f.name)) for f in self._struct)`: each field's
contribution through its `hash`, the default being native `hash`. -/
def hashFields (ct : CT) (h : Value → Except PyErr Nat) (d : List (String × Value)) :
    List FieldDesc → Except PyErr (List Nat)
  | [] => .ok []
  | f :: rest =>
      match h1 : lookupV d f.name with
      | none => .error (.keyError f.name)
      | some v =>
          match f.hashS with
          | some g =>
              match hashFields ct h d rest with
              | .ok xs => .ok (g v :: xs)
              | .error e => .error e
          | none =>
              match pyHashE ct h v with
              | .ok x =>
                  match hashFields ct h d rest with
                  | .ok xs => .ok (x :: xs)
                  | .error e => .error e
              | .error e => .error e
termination_by fl => (sizeOf d, fl.length + 1)
decreasing_by
  all_goals first
    | exact Prod.Lex.left _ _ (sizeOf_lookupV h1)
    | exact Prod.Lex.right _ (by simp)

end

/-- The index at which the first type phase of `checktype_seq` scans:
elements checked in order, the first violation reported with its position
(`from None`, so no cause is chained). -/
def seqTypePhase (ct : CT) (exp : String) (kind : List Ty) :
    Nat → List Value → Except PyErr Unit
  | _, [] => .ok ()
  | i, item :: rest =>
      if isinstKind ct item kind then seqTypePhase ct exp kind (i + 1) rest
      else .error (.typeError ("Expected sequence of " ++ exp ++ "; got sequence with "
                    ++ str_valtype item ++ " at position " ++ toString i) none)

/-- The uniqueness scan of `checktype_seq` (type.py lines 100-106): each
element is compared by `==` against every previously seen element; the
first duplicate reports `repr` of the value and the position of its second
occurrence. -/
def seqUniquePhase (ct : CT) : Nat → List Value → List Value → Except PyErr Unit
  | _, _, [] => .ok ()
  | i, seen, item :: rest =>
      if seen.any fun s => pyEq ct s item then
        .error (.typeError ("Duplicate element " ++ pyRepr ct item ++ " at position "
                 ++ toString i) none)
      else seqUniquePhase ct (i + 1) (seen ++ [item]) rest

/-- `TypeChecker.checktype_seq` (type.py lines 61-106): `iter(seq)` and
`len(seq)` must both succeed (a generator fails `len` and is rejected, not
drained), a string is rejected as an atomic value with its own message,
then every element is type-checked in order, then (when `unique`) the
quadratic duplicate scan runs. -/
def checktype_seq (ct : CT) (v : Value) (kind : List Ty) (unique : Bool) :
    Except PyErr Unit :=
  let exp := str_kind kind
  match iterLen ct v with
  | none =>
      .error (.typeError ("Expected sequence of " ++ exp ++ "; got "
               ++ str_valtype v ++ " instead of sequence") none)
  | some elems =>
      match v with
      | .vstr _ =>
          .error (.typeError ("Expected sequence of " ++ exp
                   ++ "; got single str (strings do not count as character sequences)") none)
      | _ =>
          match seqTypePhase ct exp kind 0 elems with
          | .error e => .error e
          | .ok _ => if unique then seqUniquePhase ct 0 [] elems else .ok ()

/-- The result of a rich-comparison method: a boolean, or `NotImplemented`
(which tells Python to try the reflected operation on the other operand). -/
inductive EqRes where
  | val : Bool → EqRes
  | notImpl : EqRes

/-- `Struct.__eq__` (struct.py lines 243-259) before protocol collapse:
different runtime types return `NotImplemented`; the same type compares
field-wise. `self` is always a Struct instance where this method runs, so
the non-`vinst` first argument is out of its domain. The `self is other`
identity short-circuit only concerns one single object in memory and is
omitted from the structural model. -/
def structEqRes (ct : CT) : Value → Value → EqRes
  | .vinst cn1 d1, .vinst cn2 d2 =>
      if cn1 = cn2 then .val (pyEqFields ct d1 d2 (fieldsOf ct cn1)) else .notImpl
  | _, _ => .notImpl

/-- Plain attribute read on an instance (non-descriptor names): the
instance `__dict__` first, then the class attribute; `_immutable` is the
only class-level plain attribute the engine reads. -/
def readAttr (ct : CT) (cls : StructType) (o : Obj) (n : String) : Except PyErr Value :=
  match lookupV o.dict n with
  | some v => .ok v
  | none =>
      if n = "_immutable" then .ok (.vbool cls.immutable)
      else .error (.attributeError n)

/-- `Field.__set__` (struct.py lines 70-73): refuse the write when
`inst._immutable and inst._initialized` are both truthy, else store under
the field's name in the instance `__dict__`. `and` is short-circuit, so
`_initialized` is only read when `_immutable` is truthy. -/
def baseFieldSet (ct : CT) (cls : StructType) (f : FieldDesc) (o : Obj) (v : Value) :
    Except PyErr Obj :=
  match readAttr ct cls o "_immutable" with
  | .error e => .error e
  | .ok imm =>
      if pyTruthy ct imm then
        match readAttr ct cls o "_initialized" with
        | .error e => .error e
        | .ok ini =>
            if pyTruthy ct ini then .error (.attributeError "Struct is immutable")
            else .ok { o with dict := dictSet o.dict f.name v }
      else .ok { o with dict := dictSet o.dict f.name v }

/-- The constructor callback a `TypedField` coercion re-enters: full
instantiation of a class with positional arguments. -/
def Cb := StructType → List Value → Except PyErr Obj

/-- The special case of `TypedField.__set__` (fields.py lines 69-77): a
non-sequence field whose kind is exactly one Struct class accepts a raw
tuple and replaces it by `kind[0](*value)`. An unknown class name in the
kind cannot arise from a declared class and is left uncoerced. -/
def coerceVal (ct : CT) (cb : Cb) (ti : TypedInfo) (v : Value) : Except PyErr Value :=
  match ti.seq, ti.kind, v with
  | false, [Ty.tStruct n], .vtuple elems =>
      match ctFind ct n with
      | some P =>
          match cb P elems with
          | .ok o => .ok o.toVal
          | .error e => .error e
      | none => .ok v
  | _, _, _ => .ok v

def isNoneV : Value → Bool
  | .vnone => true
  | _ => false

/-- `TypedField.check` (fields.py lines 49-58). -/
def checkVal (ct : CT) (ti : TypedInfo) (v : Value) : Except PyErr Unit :=
  if ti.orNone && isNoneV v then .ok ()
  else if ti.seq then checktype_seq ct v ti.kind ti.unique
  else checktype ct v ti.kind

/-- `TypedField.normalize` (fields.py lines 60-67): a sequence value is
converted to a tuple (`tuple(value)` iterates it once and preserves
element order). -/
def normalizeVal (ct : CT) (ti : TypedInfo) (v : Value) : Value :=
  if !(ti.orNone && isNoneV v) && ti.seq then .vtuple ((iterElems ct v).getD []) else v

/-- The value-processing pipeline a write runs before the store: identity
for a plain `Field`; coerce, check, normalize for a `TypedField`
(fields.py lines 69-81). -/
def fieldTransform (ct : CT) (cb : Cb) (f : FieldDesc) (v : Value) : Except PyErr Value :=
  match f.typed with
  | none => .ok v
  | some ti =>
      match coerceVal ct cb ti v with
      | .error e => .error e
      | .ok v1 =>
          match checkVal ct ti v1 with
          | .error e => .error e
          | .ok _ => .ok (normalizeVal ct ti v1)

/-- A field write: the transform pipeline, then `Field.__set__`'s guarded
store. The transform runs first, exactly as `TypedField.__set__` only calls
`super().__set__` last. -/
def fieldSetCb (ct : CT) (cb : Cb) (cls : StructType) (f : FieldDesc) (o : Obj) (v : Value) :
    Except PyErr Obj :=
  match fieldTransform ct cb f v with
  | .error e => .error e
  | .ok w => baseFieldSet ct cls f o w

/-- One signature parameter (struct.py lines 139-144): positional-or-
keyword, carrying the field's default when it has one. -/
structure Param where
  name : String
  default : Option Value

def paramsOf (cls : StructType) : List Param :=
  cls.fields.map fun f => { name := f.name, default := f.default }

/-- Phase 1 of `Signature.bind`: consume positional arguments against
parameters in order. A positional argument for a parameter also named in
the keywords is "multiple values"; positional arguments beyond the last
parameter are "too many positional arguments" (detected when the parameters
run out, as in CPython's argument-by-argument loop). Returns the bindings
made and the parameters still unbound. -/
def bindPositional : List Param → List Value → List (String × Value) →
    Except PyErr (List (String × Value) × List Param)
  | ps, [], _ => .ok ([], ps)
  | [], _ :: _, _ => .error (.typeError "too many positional arguments" none)
  | p :: ps, a :: args, kwargs =>
      if (lookupV kwargs p.name).isSome then
        .error (.typeError ("multiple values for argument '" ++ p.name ++ "'") none)
      else
        match bindPositional ps args kwargs with
        | .ok (bound, rest) => .ok ((p.name, a) :: bound, rest)
        | .error e => .error e

/-- Phase 2 of `Signature.bind`: the remaining parameters take their value
from the keywords; a parameter neither supplied nor defaulted is "missing a
required argument" (raised at that parameter, before any unexpected-keyword
check, as in CPython). -/
def bindKeyword (kwargs : List (String × Value)) : List Param →
    Except PyErr (List (String × Value))
  | [] => .ok []
  | p :: ps =>
      match lookupV kwargs p.name with
      | some v =>
          match bindKeyword kwargs ps with
          | .ok bound => .ok ((p.name, v) :: bound)
          | .error e => .error e
      | none =>
          if p.default.isSome then bindKeyword kwargs ps
          else .error (.typeError ("missing a required argument: '" ++ p.name ++ "'") none)

/-- Phase 3 of `Signature.bind`: a keyword that names no parameter at all is
"unexpected" (keywords naming positionally-bound parameters already failed
in phase 1). -/
def checkUnexpected (params : List Param) (kwargs : List (String × Value)) :
    Except PyErr Unit :=
  match kwargs.find? fun kv => !(params.any fun p => p.name = kv.1) with
  | some kv => .error (.typeError ("got an unexpected keyword argument '" ++ kv.1 ++ "'") none)
  | none => .ok ()

/-- `MetaStruct.get_boundargs` (struct.py lines 148-159): `Signature.bind`
and then the defaults of still-unbound parameters appended, giving a
complete name-to-value mapping for every field. -/
def get_boundargs (cls : StructType) (args : List Value) (kwargs : List (String × Value)) :
    Except PyErr (List (String × Value)) :=
  let params := paramsOf cls
  match bindPositional params args kwargs with
  | .error e => .error e
  | .ok (posBound, rest) =>
      match bindKeyword kwargs rest with
      | .error e => .error e
      | .ok kwBound =>
          match checkUnexpected params kwargs with
          | .error e => .error e
          | .ok _ =>
              let bound := posBound ++ kwBound
              .ok (params.foldl (fun acc p =>
                match lookupV acc p.name, p.default with
                | none, some dv => acc ++ [(p.name, dv)]
                | _, _ => acc) bound)

/-- `boundargs.args`: with every parameter positional-or-keyword and bound,
the values in parameter order. -/
def boundPositional (cls : StructType) (bound : List (String × Value)) : List Value :=
  cls.fields.map fun f => (lookupV bound f.name).getD .vnone

/-- The `except TypeError` wrapper of `Struct.__new__` (struct.py lines
215-221): only a `TypeError` is wrapped, into
`Error constructing <cls>[ (field '<f>')]: <msg>` with the original
exception chained as the cause (`raise ... from exc`); any other exception
propagates untouched. -/
def wrapConstructionErr (clsname : String) (fieldName : Option String) : PyErr → PyErr
  | .typeError m c =>
      let whereStr :=
        match fieldName with
        | some fn => clsname ++ " (field '" ++ fn ++ "')"
        | none => clsname
      .typeError ("Error constructing " ++ whereStr ++ ": " ++ m) (some (.typeError m c))
  | e => e

/-- The assignment loop of `Struct.__new__` (struct.py lines 212-214):
every schema field set in order through its descriptor, a `TypeError`
wrapped with the declaring class and the field at which it occurred. A
missing bound value would be a `KeyError`, which is never caught; it cannot
occur after a successful `get_boundargs`. -/
def assignFieldsCb (ct : CT) (cb : Cb) (cls : StructType) (bound : List (String × Value)) :
    List FieldDesc → Obj → Except PyErr Obj
  | [], o => .ok o
  | f :: rest, o =>
      match lookupV bound f.name with
      | none => .error (.keyError f.name)
      | some v =>
          match fieldSetCb ct cb cls f o v with
          | .error e => .error (wrapConstructionErr cls.name (some f.name) e)
          | .ok o2 => assignFieldsCb ct cb cls bound rest o2

/-- `Struct.__new__` (struct.py lines 204-223): allocate with
`_initialized = False` in the fresh `__dict__`, bind the arguments (a
binding `TypeError` here is wrapped with the class name only), then run the
assignment loop. -/
def structNewCb (ct : CT) (cb : Cb) (cls : StructType) (args : List Value)
    (kwargs : List (String × Value)) : Except PyErr Obj :=
  let o0 : Obj := { clsName := cls.name, dict := [("_initialized", .vbool false)] }
  match get_boundargs cls args kwargs with
  | .error e => .error (wrapConstructionErr cls.name none e)
  | .ok bound => assignFieldsCb ct cb cls bound cls.fields o0

/-- `MetaStruct.__call__` (struct.py lines 162-166): bind the arguments
first (a failure here propagates raw, `Struct.__new__`'s wrapper never
runs), call `__new__` with the bound values as positionals, run the
user-defined `__init__` if any (fed the instance and the bound arguments),
and only after it returns set `_initialized = True`. The fuel argument pays
for the recursion a `TypedField` coercion can re-enter; Python's analogue of
running out is `RecursionError`. -/
def metaStructCall (ct : CT) : Nat → StructType → List Value → List (String × Value) →
    Except PyErr Obj
  | 0, _, _, _ => .error .recursionError
  | Nat.succ n, cls, args, kwargs =>
      match get_boundargs cls args kwargs with
      | .error e => .error e
      | .ok bound =>
          match structNewCb ct (fun P as2 => metaStructCall ct n P as2 []) cls
                  (boundPositional cls bound) [] with
          | .error e => .error e
          | .ok o1 =>
              match cls.hook with
              | none => .ok { o1 with dict := dictSet o1.dict "_initialized" (.vbool true) }
              | some hk =>
                  match hk o1 bound with
                  | .error e => .error e
                  | .ok d2 =>
                      .ok { clsName := o1.clsName,
                            dict := dictSet d2 "_initialized" (.vbool true) }

/-- The constructor callback at a given fuel: what `self.kind[0](*value)`
runs. -/
def ctorCb (ct : CT) (fuel : Nat) : Cb :=
  fun P as2 => metaStructCall ct fuel P as2 []

/-- A field write with the coercion callback tied to the real constructor. -/
def fieldSet (ct : CT) (fuel : Nat) (cls : StructType) (f : FieldDesc) (o : Obj) (v : Value) :
    Except PyErr Obj :=
  fieldSetCb ct (ctorCb ct fuel) cls f o v

def structNew (ct : CT) (fuel : Nat) (cls : StructType) (args : List Value)
    (kwargs : List (String × Value)) : Except PyErr Obj :=
  structNewCb ct (ctorCb ct fuel) cls args kwargs

/-- `setattr` on an instance: a name bound to a `Field` descriptor anywhere
on the class's MRO runs `Field.__set__` (with its immutability guard); any
other name is a plain `__dict__` write, which always succeeds. The
`_initialized` marker itself is such a plain attribute. -/
def objSetattr (ct : CT) (fuel : Nat) (cls : StructType) (o : Obj) (n : String) (v : Value) :
    Except PyErr Obj :=
  match cls.visibleFields.find? fun f => f.name = n with
  | some f => fieldSet ct fuel cls f o v
  | none => .ok { o with dict := dictSet o.dict n v }

/-- `Struct.__len__` (struct.py lines 271-272). -/
def structLen (ct : CT) (o : Obj) : Nat := (fieldsOf ct o.clsName).length

/-- `Struct.__iter__` (struct.py lines 274-275): field values in schema
order. -/
def structIterVals (ct : CT) (o : Obj) : List Value :=
  (fieldsOf ct o.clsName).map fun f => (lookupV o.dict f.name).getD .vnone

/-- `Struct._asdict` (struct.py lines 305-308). -/
def structAsdict (ct : CT) (o : Obj) : List (String × Value) :=
  (fieldsOf ct o.clsName).map fun f => (f.name, (lookupV o.dict f.name).getD .vnone)

/-- The ordered field values of an instance (the reconstruction payload
`__reduce_ex__` captures, struct.py lines 297-303). -/
def storedVals (cls : StructType) (o : Obj) : List Value :=
  cls.fields.map fun f => (lookupV o.dict f.name).getD .vnone

/-- `Struct._replace` (struct.py lines 310-317): the current field values
as a name-to-value dict, updated with the overrides, passed as keyword
arguments to the full constructor `type(self)(**fields)`. -/
def structReplace (ct : CT) (fuel : Nat) (cls : StructType) (o : Obj)
    (overrides : List (String × Value)) : Except PyErr Obj :=
  let fields0 := (fieldsOf ct o.clsName).map fun f =>
    (f.name, (lookupV o.dict f.name).getD .vnone)
  metaStructCall ct fuel cls [] (overrides.foldl (fun acc kv => dictSet acc kv.1 kv.2) fields0)

/-- One entry of a class body as `MetaStruct.__new__` walks it: a field
declaration (a `Field` instance, or the bare class shorthand it
instantiates) or anything else. -/
inductive NsItem where
  | fieldItem : FieldDesc → NsItem
  | plain : NsItem

/-- The names occurring more than once, in first-occurrence order. (CPython
collects them from a `Counter`; the claimably relevant content is the set.) -/
def dupNames (l : List String) : List String :=
  (l.filter fun n => 1 < l.count n).dedup

def collisionMsg (clsname : String) (collided : List String) : String :=
  "Struct " ++ clsname ++ " has colliding field name(s): " ++
    String.intercalate ", " collided

/-- The field-gathering of `MetaStruct.__new__` (struct.py lines 108-126):
base-class fields first (left to right) when `_inherit_fields` is truthy,
then the class's own declarations in body order, each copied and given its
attribute name. -/
def gatherFields (bases : List StructType) (inheritFields : Bool)
    (ns : List (String × NsItem)) : List FieldDesc :=
  (if inheritFields then (bases.map fun b => b.fields).flatten else []) ++
    ns.filterMap fun kv =>
      match kv.2 with
      | .fieldItem f => some { f with name := kv.1 }
      | .plain => none

/-- `inspect.Signature` rejects a non-default parameter after a defaulted
one; `MetaStruct.__new__` builds the signature from the fields in order, so
such a field list fails class creation with a `ValueError`. -/
def sigOrderOk : List FieldDesc → Bool
  | [] => true
  | f :: rest =>
      if f.default.isSome then rest.all fun g => g.default.isSome
      else sigOrderOk rest

/-- `MetaStruct.__new__` (struct.py lines 107-146): gather the fields,
refuse colliding names before the class exists, build the signature, and
publish the compiled class. `inheritFields`, `immutable` and `hook` stand
for the `_inherit_fields` and `_immutable` attributes and the `__init__`
found in the namespace/bases. -/
def metaStructNew (clsname : String) (bases : List StructType) (inheritFields : Bool)
    (immutable : Bool)
    (hook : Option (Obj → List (String × Value) → Except PyErr (List (String × Value))))
    (ns : List (String × NsItem)) : Except PyErr StructType :=
  let fields := gatherFields bases inheritFields ns
  let collided := dupNames (fields.map fun f => f.name)
  if !collided.isEmpty then .error (.attributeError (collisionMsg clsname collided))
  else if !sigOrderOk fields then
    .error (.valueError "non-default argument follows default argument")
  else .ok {
    name := clsname
    immutable := immutable
    fields := fields
    visibleFields := (ns.filterMap fun kv =>
        match kv.2 with
        | .fieldItem f => some { f with name := kv.1 }
        | .plain => none) ++ (bases.map fun b => b.visibleFields).flatten
    ancestors := clsname :: (bases.map fun b => b.ancestors).flatten
    hook := hook }

/- Concrete declared classes, mirroring shapes from the repository's own
test suite, used to evaluate the theorems on explicit inputs. -/

/-- A plain `Field()` descriptor named `a`. -/
def fldA : FieldDesc := { name := "a", default := none, typed := none, eqS := none, hashS := none }

def fldBar : FieldDesc :=
  { name := "bar", default := none, typed := none, eqS := none, hashS := none }

def fldB : FieldDesc := { name := "b", default := none, typed := none, eqS := none, hashS := none }

def fldX : FieldDesc := { name := "x", default := none, typed := none, eqS := none, hashS := none }

def fldY : FieldDesc := { name := "y", default := none, typed := none, eqS := none, hashS := none }

/-- An unnamed `Field()` prototype as it sits in a class body before
`MetaStruct.__new__` copies it and assigns the attribute name. -/
def fldProto : FieldDesc :=
  { name := "", default := none, typed := none, eqS := none, hashS := none }

/-- `class Foo(Struct): a = Field()`. -/
def clsFoo : StructType := {
  name := "Foo"
  immutable := true
  fields := [fldA]
  visibleFields := [fldA]
  ancestors := ["Foo"]
  hook := none }

/-- `class Mut(Struct): _immutable = False; b = Field()`. -/
def clsMut : StructType := {
  name := "Mut"
  immutable := false
  fields := [fldB]
  visibleFields := [fldB]
  ancestors := ["Mut"]
  hook := none }

/-- `class Imm(Struct): a = Field()` — immutable, one unconstrained slot. -/
def clsImm : StructType := {
  name := "Imm"
  immutable := true
  fields := [fldA]
  visibleFields := [fldA]
  ancestors := ["Imm"]
  hook := none }

/-- The `__init__` of
`class Hooky(Struct): bar = Field(); def __init__(self, *a): self.bar += 1`
from the repository's tests: the write goes through the `bar` descriptor,
whose guard passes because `_initialized` is still false inside
`__init__`. -/
def hookyHook (o : Obj) (_bound : List (String × Value)) :
    Except PyErr (List (String × Value)) :=
  .ok (dictSet o.dict "bar"
    (match lookupV o.dict "bar" with
     | some (.vint k) => .vint (k + 1)
     | _ => .vint 0))

def clsHooky : StructType := {
  name := "Hooky"
  immutable := true
  fields := [fldBar]
  visibleFields := [fldBar]
  ancestors := ["Hooky"]
  hook := some hookyHook }

/-- `class A(Struct): x = Field()`. -/
def clsA : StructType := {
  name := "A"
  immutable := true
  fields := [fldX]
  visibleFields := [fldX]
  ancestors := ["A"]
  hook := none }

/-- `class B(A): y = Field()` with no `_inherit_fields`: the schema is just
`y`, but `x` is still a `Field` descriptor reachable through `A`. -/
def clsB : StructType := {
  name := "B"
  immutable := true
  fields := [fldY]
  visibleFields := [fldY, fldX]
  ancestors := ["B", "A"]
  hook := none }

/-- `p = TypedField(Foo)`: non-sequence field whose kind is exactly the
record class `Foo`. -/
def fldP : FieldDesc := {
  name := "p"
  default := none
  typed := some { kind := [Ty.tStruct "Foo"], seq := false, unique := false, orNone := false }
  eqS := none
  hashS := none }

/-- `class Outer(Struct): p = TypedField(Foo)`. -/
def clsOuter : StructType := {
  name := "Outer"
  immutable := true
  fields := [fldP]
  visibleFields := [fldP]
  ancestors := ["Outer"]
  hook := none }

/-- `vals = TypedField(int, seq=True, unique=True)`. -/
def fldVals : FieldDesc := {
  name := "vals"
  default := none
  typed := some { kind := [Ty.tInt], seq := true, unique := true, orNone := false }
  eqS := none
  hashS := none }

/-- `class Schema(Struct): vals = TypedField(int, seq=True, unique=True)`. -/
def clsSchema : StructType := {
  name := "Schema"
  immutable := true
  fields := [fldVals]
  visibleFields := [fldVals]
  ancestors := ["Schema"]
  hook := none }

/-- The fixture class table. -/
def ctAll : CT :=
  [("Foo", clsFoo), ("Mut", clsMut), ("Imm", clsImm), ("Hooky", clsHooky),
   ("A", clsA), ("B", clsB), ("Outer", clsOuter), ("Schema", clsSchema)]

/-- `Foo(5)` as constructed. -/
def objFoo5 : Obj := ⟨"Foo", [("_initialized", .vbool true), ("a", .vint 5)]⟩

/-- A total stand-in for the native hash of non-Struct builtins. -/
def hZero : Value → Except PyErr Nat := fun _ => .ok 0

/-- Whether `pat` starts at the head of `s`. -/
def charsStartWith : List Char → List Char → Bool
  | _, [] => true
  | [], _ :: _ => false
  | a :: s1, b :: p1 => a == b && charsStartWith s1 p1

/-- Whether `pat` occurs as a contiguous run inside `s`. -/
def charsContain (s pat : List Char) : Bool :=
  match s with
  | [] => charsStartWith [] pat
  | _ :: rest => charsStartWith s pat || charsContain rest pat

/-- Whether the string `s` mentions `pat` (used to state whether an error
message names a type or a field). -/
def strMentions (s pat : String) : Bool := charsContain s.toList pat.toList

/- ------------------------------------------------------------------ -/
/- Theorems.                                                          -/
/- ------------------------------------------------------------------ -/

theorem lookup_dictSet_self (d : List (String × Value)) (n : String) (v : Value) :
    lookupV (dictSet d n v) n = some v := by
  induction d with
  | nil => simp [dictSet, lookupV]
  | cons p rest ih =>
      obtain ⟨k, w⟩ := p
      by_cases hk : k = n
      · simp [dictSet, hk, lookupV]
      · simp [dictSet, hk, lookupV, ih]

theorem lookup_dictSet_ne (d : List (String × Value)) (n m : String) (v : Value)
    (h : m ≠ n) : lookupV (dictSet d n v) m = lookupV d m := by
  induction d with
  | nil => simp [dictSet, lookupV, Ne.symm h]
  | cons p rest ih =>
      obtain ⟨k, w⟩ := p
      by_cases hk : k = n
      · subst hk
        simp [dictSet, lookupV, Ne.symm h]
      · simp only [dictSet, if_neg hk]
        by_cases hm : k = m
        · simp [lookupV, hm]
        · simp [lookupV, hm, ih]

theorem dictSet_fresh (d : List (String × Value)) (n : String) (v : Value)
    (h : lookupV d n = none) : dictSet d n v = d ++ [(n, v)] := by
  induction d with
  | nil => simp [dictSet]
  | cons p rest ih =>
      obtain ⟨k, w⟩ := p
      by_cases hk : k = n
      · simp [lookupV, hk] at h
      · simp [lookupV, hk] at h
        simp [dictSet, hk, ih h]

theorem pyEqFields_cons (ct : CT) (d1 d2 : List (String × Value))
    (f : FieldDesc) (rest : List FieldDesc) :
    pyEqFields ct d1 d2 (f :: rest) =
      ((match lookupV d1 f.name, lookupV d2 f.name with
        | some v1, some v2 => fieldEqFn ct f v1 v2
        | _, _ => false)
       && pyEqFields ct d1 d2 rest) := by
  rw [pyEqFields]
  cases h1 : lookupV d1 f.name with
  | none => rfl
  | some v1 =>
      cases h2 : lookupV d2 f.name with
      | none => rfl
      | some v2 => rfl

theorem dupNames_mem (l : List String) (n : String) :
    n ∈ dupNames l ↔ 1 < l.count n := by
  unfold dupNames
  rw [List.mem_dedup, List.mem_filter]
  constructor
  · rintro ⟨_, h⟩
    simpa using h
  · intro h
    refine ⟨?_, by simpa using h⟩
    have hpos : 0 < l.count n := by omega
    exact List.count_pos_iff.mp hpos

/-- C6: when the gathered field names of a declared record type (own fields
plus, under `_inherit_fields`, inherited ones) contain any repeated name,
`MetaStruct.__new__` fails at class-declaration time with an
`AttributeError` naming every colliding name (its message lists exactly the
names of multiplicity greater than one), so no class — hence no instance —
is ever produced. -/
theorem C6_collision (clsname : String) (bases : List StructType) (inh imm : Bool)
    (hk : Option (Obj → List (String × Value) → Except PyErr (List (String × Value))))
    (ns : List (String × NsItem))
    (hdup : dupNames ((gatherFields bases inh ns).map fun f => f.name) ≠ []) :
    metaStructNew clsname bases inh imm hk ns =
      .error (.attributeError (collisionMsg clsname
        (dupNames ((gatherFields bases inh ns).map fun f => f.name)))) ∧
    ∀ n, n ∈ dupNames ((gatherFields bases inh ns).map fun f => f.name) ↔
        1 < ((gatherFields bases inh ns).map fun f => f.name).count n := by
  constructor
  · unfold metaStructNew
    rw [if_pos]
    simpa [List.isEmpty_iff] using hdup
  · intro n
    exact dupNames_mem _ n

/-- Witness for C6: `class Baz(A): _inherit_fields = True; x = Field()`
collides on `x` (one inherited, one redeclared) and fails exactly as the
theorem states, before any class exists. -/
theorem C6_collision_witness :
    (dupNames ((gatherFields [clsA] true [("x", .fieldItem fldProto)]).map
        fun f => f.name) ≠ []) ∧
    metaStructNew "Baz" [clsA] true true none [("x", .fieldItem fldProto)] =
      .error (.attributeError "Struct Baz has colliding field name(s): x") :=
  ⟨by decide, (C6_collision "Baz" [clsA] true true none
      [("x", .fieldItem fldProto)] (by decide)).1⟩

/-- C8: `checktype_seq` rejects a value that is not a sized, re-iterable
sequence — in particular a one-shot generator is rejected (not drained),
and a bare non-iterable like an `int` likewise — with the
"instead of sequence" error; a text string, though iterable and sized, is
always treated as an atomic scalar and rejected with the distinct
"strings do not count as character sequences" message; and a valid
collection assigned to a sequence-typed field is normalized by the write
pipeline to an immutable tuple preserving element order, at that single
assignment. -/
theorem C8_sequence_check (ct : CT) (kind : List Ty) (u : Bool) :
    (∀ l, checktype_seq ct (.vgen l) kind u =
        .error (.typeError ("Expected sequence of " ++ str_kind kind ++
          "; got generator instead of sequence") none)) ∧
    (∀ n, checktype_seq ct (.vint n) kind u =
        .error (.typeError ("Expected sequence of " ++ str_kind kind ++
          "; got int instead of sequence") none)) ∧
    (∀ s, checktype_seq ct (.vstr s) kind u =
        .error (.typeError ("Expected sequence of " ++ str_kind kind ++
          "; got single str (strings do not count as character sequences)") none)) ∧
    (∀ (cb : Cb) (f : FieldDesc) (ti : TypedInfo) (elems : List Value),
        f.typed = some ti → ti.seq = true →
        checkVal ct ti (.vlist elems) = .ok () →
        fieldTransform ct cb f (.vlist elems) = .ok (.vtuple elems)) := by
  refine ⟨fun l => ?_, fun n => ?_, fun s => ?_, fun cb f ti elems hty hseq hchk => ?_⟩
  · simp [checktype_seq, iterLen, str_valtype, String.append_assoc]
  · simp [checktype_seq, iterLen, str_valtype, String.append_assoc]
  · simp [checktype_seq, iterLen, str_valtype, String.append_assoc]
  · simp [fieldTransform, hty, coerceVal, hseq, hchk, normalizeVal, isNoneV,
      iterElems, iterLen]

/-- Witness for C8: the generator/int/string rejections and the
normalization of `Schema([1, 2])`'s list to the tuple `(1, 2)`. -/
theorem C8_sequence_check_witness :
    checktype_seq ctAll (.vgen [.vint 1]) [Ty.tInt] true =
      .error (.typeError "Expected sequence of int; got generator instead of sequence"
        none) ∧
    checktype_seq ctAll (.vstr "foo") [Ty.tStr] false =
      .error (.typeError
        "Expected sequence of str; got single str (strings do not count as character sequences)"
        none) ∧
    fieldTransform ctAll (ctorCb ctAll 1) fldVals (.vlist [.vint 1, .vint 2]) =
      .ok (.vtuple [.vint 1, .vint 2]) := by
  refine ⟨?_, ?_, ?_⟩
  · exact (C8_sequence_check ctAll [Ty.tInt] true).1 [.vint 1]
  · exact (C8_sequence_check ctAll [Ty.tStr] false).2.2.1 "foo"
  · exact (C8_sequence_check ctAll [Ty.tInt] true).2.2.2 (ctorCb ctAll 1) fldVals
      _ [.vint 1, .vint 2] rfl rfl (by
        simp [checkVal, isNoneV, checktype_seq, iterLen, seqTypePhase, isinstKind,
          isinst, seqUniquePhase, pyEq])

theorem seqUniquePhase_ok (ct : CT) (elems : List Value) :
    ∀ (i : Nat) (seen : List Value),
    (∀ a ∈ seen, ∀ b ∈ elems, pyEq ct a b = false) →
    elems.Pairwise (fun a b => pyEq ct a b = false) →
    seqUniquePhase ct i seen elems = .ok () := by
  induction elems with
  | nil => intro i seen _ _; rfl
  | cons x rest ih =>
      intro i seen hseen hpw
      have hx : (seen.any fun s => pyEq ct s x) = false := by
        rw [List.any_eq_false]
        intro a ha
        simp [hseen a ha x (by simp)]
      rw [seqUniquePhase, hx]
      simp only [Bool.false_eq_true, if_false]
      apply ih
      · intro a ha b hb
        rcases List.mem_append.mp ha with h | h
        · exact hseen a h b (by simp [hb])
        · have : a = x := by simpa using h
          subst this
          exact (List.pairwise_cons.mp hpw).1 b hb
      · exact (List.pairwise_cons.mp hpw).2

/-- C9: for a unique sequence field check, all elements are type-checked
first (a type failure preempts the uniqueness scan and reports its index),
then each element is compared against all previously seen ones; the
concrete inputs of the spec behave as stated: `[1,2,3,2]` fails reporting
duplicate `2` at position 3, `[1,2,3,4]` succeeds, and any pairwise
`==`-distinct list passes the uniqueness scan. -/
theorem C9_unique_scan (ct : CT) :
    (checktype_seq ct (.vlist [.vint 1, .vint 2, .vint 3, .vint 2]) [Ty.tInt] true =
        .error (.typeError "Duplicate element 2 at position 3" none)) ∧
    (checktype_seq ct (.vlist [.vint 1, .vint 2, .vint 3, .vint 4]) [Ty.tInt] true =
        .ok ()) ∧
    (∀ (kind : List Ty) (elems : List Value) (e : PyErr),
        seqTypePhase ct (str_kind kind) kind 0 elems = .error e →
        checktype_seq ct (.vlist elems) kind true = .error e) ∧
    (∀ (kind : List Ty) (elems : List Value),
        seqTypePhase ct (str_kind kind) kind 0 elems = .ok () →
        checktype_seq ct (.vlist elems) kind true = seqUniquePhase ct 0 [] elems) ∧
    (∀ (elems : List Value) (i : Nat),
        elems.Pairwise (fun a b => pyEq ct a b = false) →
        seqUniquePhase ct i [] elems = .ok ()) := by
  refine ⟨?_, ?_, fun kind elems e h => ?_, fun kind elems h => ?_,
    fun elems i hpw => ?_⟩
  · simp [checktype_seq, iterLen, seqTypePhase, isinstKind, isinst, str_kind, tyName,
      seqUniquePhase, pyEq, pyRepr]
    rfl
  · simp [checktype_seq, iterLen, seqTypePhase, isinstKind, isinst, str_kind, tyName,
      seqUniquePhase, pyEq]
  · simp [checktype_seq, iterLen, h]
  · simp [checktype_seq, iterLen, h]
  · exact seqUniquePhase_ok ct elems i [] (by simp) hpw

/-- Witness for C9: the type phase preempting the uniqueness scan on
`[1, 'a']` (type failure at position 1 although no duplicate exists), and
the duplicate-free `[1,2,3,4]` succeeding. -/
theorem C9_unique_scan_witness :
    checktype_seq ctAll (.vlist [.vint 1, .vstr "a"]) [Ty.tInt] true =
      .error (.typeError "Expected sequence of int; got sequence with str at position 1"
        none) ∧
    checktype_seq ctAll (.vlist [.vint 1, .vint 2, .vint 3, .vint 4]) [Ty.tInt] true =
      .ok () :=
  ⟨(C9_unique_scan ctAll).2.2.1 [Ty.tInt] [.vint 1, .vstr "a"] _ (by
      simp [seqTypePhase, isinstKind, isinst, str_kind, tyName, str_valtype]
      rfl),
   (C9_unique_scan ctAll).2.1⟩

theorem pyEqFields_true (ct : CT) (d1 d2 : List (String × Value)) :
    ∀ fl : List FieldDesc,
    (∀ f ∈ fl, ∃ v1 v2, lookupV d1 f.name = some v1 ∧ lookupV d2 f.name = some v2 ∧
        fieldEqFn ct f v1 v2 = true) →
    pyEqFields ct d1 d2 fl = true := by
  intro fl
  induction fl with
  | nil => intro _; simp [pyEqFields]
  | cons f rest ih =>
      intro h
      rw [pyEqFields_cons]
      obtain ⟨v1, v2, h1, h2, he⟩ := h f (by simp)
      rw [h1, h2]
      simp only [he, Bool.true_and]
      exact ih fun g hg => h g (by simp [hg])

/-- C2: instances of the same Struct type whose field values are pairwise
equal under each field's configured `eq` compare equal both at the
`__eq__` level and through the full `==` protocol; instances of two
different Struct types (a subtype and its parent included — their runtime
types differ) are never equal whatever their dicts hold, and `__eq__`
returns `NotImplemented` (delegating to the other operand) rather than a
hard `False` — the hard `False` only appears after both sides have
delegated. -/
theorem C2_structural_equality (ct : CT) (cls : StructType) (cn : String)
    (d1 d2 : List (String × Value)) (hfind : ctFind ct cn = some cls)
    (hfw : ∀ f ∈ cls.fields, ∃ v1 v2, lookupV d1 f.name = some v1 ∧
        lookupV d2 f.name = some v2 ∧ fieldEqFn ct f v1 v2 = true) :
    (structEqRes ct (.vinst cn d1) (.vinst cn d2) = .val true ∧
     pyEq ct (.vinst cn d1) (.vinst cn d2) = true) ∧
    (∀ (cn2 : String) (d3 d4 : List (String × Value)), cn ≠ cn2 →
        structEqRes ct (.vinst cn d3) (.vinst cn2 d4) = .notImpl ∧
        pyEq ct (.vinst cn d3) (.vinst cn2 d4) = false) := by
  have hfields : fieldsOf ct cn = cls.fields := by simp [fieldsOf, hfind]
  have htrue := pyEqFields_true ct d1 d2 cls.fields hfw
  refine ⟨⟨?_, ?_⟩, fun cn2 d3 d4 hne => ⟨?_, ?_⟩⟩
  · simp [structEqRes, hfields, htrue]
  · simp [pyEq, hfields, htrue]
  · simp [structEqRes, hne]
  · simp [pyEq, hne]

/-- Witness for C2: `Foo(5) == Foo(5)` (built at different moments, so the
`_initialized` markers differ — only schema fields matter), while `Foo` and
`Imm` instances with *identical* dicts still compare unequal, by
`NotImplemented` on both sides. -/
theorem C2_structural_equality_witness :
    pyEq ctAll (.vinst "Foo" [("_initialized", .vbool true), ("a", .vint 5)])
      (.vinst "Foo" [("_initialized", .vbool false), ("a", .vint 5)]) = true ∧
    structEqRes ctAll (.vinst "Foo" [("_initialized", .vbool true), ("a", .vint 5)])
      (.vinst "Imm" [("_initialized", .vbool true), ("a", .vint 5)]) = .notImpl ∧
    pyEq ctAll (.vinst "Foo" [("_initialized", .vbool true), ("a", .vint 5)])
      (.vinst "Imm" [("_initialized", .vbool true), ("a", .vint 5)]) = false := by
  have h := C2_structural_equality ctAll clsFoo "Foo"
    [("_initialized", .vbool true), ("a", .vint 5)]
    [("_initialized", .vbool false), ("a", .vint 5)]
    rfl
    (by
      intro f hf
      simp only [clsFoo] at hf
      simp only [List.mem_singleton] at hf
      subst hf
      exact ⟨.vint 5, .vint 5, rfl, rfl, by simp [fieldEqFn, fldA, pyEq]⟩)
  exact ⟨h.1.2, (h.2 "Imm" _ _ (by decide)).1, (h.2 "Imm" _ _ (by decide)).2⟩

theorem baseFieldSet_ok_clsName {ct : CT} {cls : StructType} {f : FieldDesc} {o : Obj}
    {v : Value} {o2 : Obj} (h : baseFieldSet ct cls f o v = .ok o2) :
    o2.clsName = o.clsName := by
  unfold baseFieldSet at h
  repeat' split at h
  all_goals simp_all
  all_goals subst h; rfl

theorem fieldSetCb_ok_clsName {ct : CT} {cb : Cb} {cls : StructType} {f : FieldDesc}
    {o : Obj} {v : Value} {o2 : Obj} (h : fieldSetCb ct cb cls f o v = .ok o2) :
    o2.clsName = o.clsName := by
  unfold fieldSetCb at h
  split at h
  · exact absurd h (by simp)
  · exact baseFieldSet_ok_clsName h

theorem assignFieldsCb_ok_clsName {ct : CT} {cb : Cb} {cls : StructType}
    {bound : List (String × Value)} :
    ∀ {fl : List FieldDesc} {o o2 : Obj},
    assignFieldsCb ct cb cls bound fl o = .ok o2 → o2.clsName = o.clsName := by
  intro fl
  induction fl with
  | nil =>
      intro o o2 h
      simp only [assignFieldsCb] at h
      cases h
      rfl
  | cons f rest ih =>
      intro o o2 h
      simp only [assignFieldsCb] at h
      split at h
      · exact absurd h (by simp)
      · split at h
        · exact absurd h (by simp)
        · rename_i o1 heq
          exact (ih h).trans (fieldSetCb_ok_clsName heq)

theorem metaStructCall_ok_clsName {ct : CT} {fuel : Nat} {cls : StructType}
    {args : List Value} {kwargs : List (String × Value)} {y : Obj}
    (h : metaStructCall ct fuel cls args kwargs = .ok y) : y.clsName = cls.name := by
  cases fuel with
  | zero => exact absurd h (by simp [metaStructCall])
  | succ n =>
      rw [metaStructCall] at h
      split at h
      · exact absurd h (by simp)
      · split at h
        · exact absurd h (by simp)
        · rename_i o1 hnew
          have ho1 : o1.clsName = cls.name := by
            unfold structNewCb at hnew
            split at hnew
            · exact absurd hnew (by simp)
            · exact assignFieldsCb_ok_clsName hnew
          split at h
          · cases h
            simpa using ho1
          · split at h
            · exact absurd h (by simp)
            · cases h
              simpa using ho1

/-- C7: a non-sequence `TypedField` whose kind is exactly one record class
`P` accepts a `P` instance unchanged through the whole write pipeline, and
coerces a raw tuple by running `P`'s full constructor on its elements
before validating: when that construction fails (e.g. wrong arity) the
field write fails with that very same error, and when it succeeds the
coerced instance is what gets validated and stored. -/
theorem C7_record_kind_field (ct : CT) (fuel : Nat) (cls P : StructType)
    (f : FieldDesc) (ti : TypedInfo) (o : Obj) (pn : String)
    (hty : f.typed = some ti) (hk : ti.kind = [Ty.tStruct pn]) (hseq : ti.seq = false)
    (hfind : ctFind ct pn = some P) (hname : P.name = pn) (hanc : pn ∈ P.ancestors) :
    (∀ d, fieldTransform ct (ctorCb ct fuel) f (.vinst pn d) = .ok (.vinst pn d)) ∧
    (∀ elems e, metaStructCall ct fuel P elems [] = .error e →
        fieldSet ct fuel cls f o (.vtuple elems) = .error e) ∧
    (∀ elems y, metaStructCall ct fuel P elems [] = .ok y →
        fieldSet ct fuel cls f o (.vtuple elems) = baseFieldSet ct cls f o y.toVal) := by
  refine ⟨fun d => ?_, fun elems e he => ?_, fun elems y hy => ?_⟩
  · simp [fieldTransform, hty, coerceVal, hseq, hk, checkVal, isNoneV, isinstKind,
      isinst, hfind, hanc, checktype, normalizeVal]
  · simp [fieldSet, fieldSetCb, fieldTransform, hty, coerceVal, hseq, hk, hfind,
      ctorCb, he]
  · have hcls : y.clsName = pn := (metaStructCall_ok_clsName hy).trans hname
    simp [fieldSet, fieldSetCb, fieldTransform, hty, coerceVal, hseq, hk, hfind,
      ctorCb, hy, checkVal, Obj.toVal, isNoneV, isinstKind, isinst, hcls, hanc,
      checktype, normalizeVal]

/-- Witness for C7: a `Foo` instance passes `Outer`'s `p = TypedField(Foo)`
pipeline unchanged; the wrong-arity tuple `(7, 8)` makes the field write
fail with exactly the error `Foo(7, 8)` itself raises; and the well-formed
tuple `(7,)` is coerced into a constructed `Foo`. -/
theorem C7_record_kind_field_witness :
    fieldTransform ctAll (ctorCb ctAll 1) fldP
      (.vinst "Foo" [("_initialized", .vbool true), ("a", .vint 7)]) =
      .ok (.vinst "Foo" [("_initialized", .vbool true), ("a", .vint 7)]) ∧
    metaStructCall ctAll 2 clsFoo [.vint 7, .vint 8] [] =
      .error (.typeError "too many positional arguments" none) ∧
    fieldSet ctAll 2 clsOuter fldP ⟨"Outer", [("_initialized", .vbool false)]⟩
      (.vtuple [.vint 7, .vint 8]) =
      .error (.typeError "too many positional arguments" none) ∧
    fieldSet ctAll 2 clsOuter fldP ⟨"Outer", [("_initialized", .vbool false)]⟩
      (.vtuple [.vint 7]) =
      .ok ⟨"Outer", [("_initialized", .vbool false),
        ("p", .vinst "Foo" [("_initialized", .vbool true), ("a", .vint 7)])]⟩ := by
  have h := C7_record_kind_field ctAll 2 clsOuter clsFoo fldP
    { kind := [Ty.tStruct "Foo"], seq := false, unique := false, orNone := false }
    ⟨"Outer", [("_initialized", .vbool false)]⟩ "Foo" rfl rfl rfl rfl rfl
    (by simp [clsFoo])
  refine ⟨?_, rfl, ?_, ?_⟩
  · exact (C7_record_kind_field ctAll 1 clsOuter clsFoo fldP
      { kind := [Ty.tStruct "Foo"], seq := false, unique := false, orNone := false }
      ⟨"Outer", [("_initialized", .vbool false)]⟩ "Foo" rfl rfl rfl rfl rfl
      (by simp [clsFoo])).1 [("_initialized", .vbool true), ("a", .vint 7)]
  · exact h.2.1 [.vint 7, .vint 8] _ rfl
  · rw [h.2.2 [.vint 7] ⟨"Foo", [("_initialized", .vbool true), ("a", .vint 7)]⟩ rfl]
    rfl

theorem baseFieldSet_ok_dict {ct : CT} {cls : StructType} {f : FieldDesc} {o : Obj}
    {v : Value} {o2 : Obj} (h : baseFieldSet ct cls f o v = .ok o2) :
    o2 = { o with dict := dictSet o.dict f.name v } := by
  unfold baseFieldSet at h
  repeat' split at h
  all_goals simp_all

theorem fieldSetCb_ok_dict {ct : CT} {cb : Cb} {cls : StructType} {f : FieldDesc}
    {o : Obj} {v : Value} {o2 : Obj} (h : fieldSetCb ct cb cls f o v = .ok o2) :
    ∃ w, fieldTransform ct cb f v = .ok w ∧
      o2 = { o with dict := dictSet o.dict f.name w } := by
  unfold fieldSetCb at h
  split at h
  · exact absurd h (by simp)
  · rename_i w hw
    exact ⟨w, hw, baseFieldSet_ok_dict h⟩

theorem assignFieldsCb_preserves_key {ct : CT} {cb : Cb} {cls : StructType}
    {bound : List (String × Value)} {k : String} :
    ∀ {fl : List FieldDesc} {o o2 : Obj},
    assignFieldsCb ct cb cls bound fl o = .ok o2 →
    (∀ f ∈ fl, f.name ≠ k) →
    lookupV o2.dict k = lookupV o.dict k := by
  intro fl
  induction fl with
  | nil =>
      intro o o2 h _
      simp only [assignFieldsCb] at h
      cases h
      rfl
  | cons f rest ih =>
      intro o o2 h hk
      simp only [assignFieldsCb] at h
      split at h
      · exact absurd h (by simp)
      · split at h
        · exact absurd h (by simp)
        · rename_i o1 heq
          obtain ⟨w, htr, ho1⟩ := fieldSetCb_ok_dict heq
          have h2 := ih h (fun g hg => hk g (by simp [hg]))
          rw [h2, ho1]
          exact lookup_dictSet_ne _ _ _ _ (Ne.symm (hk f (by simp)))

/-- C5: on an immutable Struct type, a write to a schema field of an
instance whose `_initialized` marker is set fails with the mutation
`AttributeError` (whatever value was being written — provided it survives
the type pipeline, i.e. the same write a hook could make); the identical
write on the same instance state with the marker still false succeeds and
stores the value; and `MetaStruct.__call__` runs the user hook on an
instance whose marker is still false, flipping it to true only after the
hook has returned. -/
theorem C5_mutation_window (ct : CT) (fuel : Nat) (cls : StructType) (f : FieldDesc)
    (o : Obj) (v w : Value)
    (himm : cls.immutable = true)
    (hnosh : lookupV o.dict "_immutable" = none)
    (hinit : lookupV o.dict "_initialized" = some (.vbool true))
    (htr : fieldTransform ct (ctorCb ct fuel) f v = .ok w) :
    fieldSet ct fuel cls f o v = .error (.attributeError "Struct is immutable") ∧
    (∀ o2 : Obj, lookupV o2.dict "_immutable" = none →
        lookupV o2.dict "_initialized" = some (.vbool false) →
        fieldSet ct fuel cls f o2 v = .ok { o2 with dict := dictSet o2.dict f.name w }) ∧
    (∀ (n : Nat) (args : List Value) (kwargs bound : List (String × Value)) (o1 : Obj)
        (hkf : Obj → List (String × Value) → Except PyErr (List (String × Value))),
        cls.hook = some hkf →
        (∀ g ∈ cls.fields, g.name ≠ "_initialized") →
        get_boundargs cls args kwargs = .ok bound →
        structNew ct n cls (boundPositional cls bound) [] = .ok o1 →
        lookupV o1.dict "_initialized" = some (.vbool false) ∧
        metaStructCall ct (n + 1) cls args kwargs =
          (match hkf o1 bound with
           | .error e => .error e
           | .ok d2 => .ok { clsName := o1.clsName,
                             dict := dictSet d2 "_initialized" (.vbool true) })) := by
  refine ⟨?_, fun o2 hnosh2 hinit2 => ?_, fun n args kwargs bound o1 hkf hhook hfn hget hnew => ?_⟩
  · simp [fieldSet, fieldSetCb, htr, baseFieldSet, readAttr, hnosh, himm, hinit, pyTruthy]
  · simp [fieldSet, fieldSetCb, htr, baseFieldSet, readAttr, hnosh2, himm, hinit2, pyTruthy]
  · constructor
    · have hnew2 : structNewCb ct (ctorCb ct n) cls (boundPositional cls bound) [] =
          .ok o1 := hnew
      unfold structNewCb at hnew2
      split at hnew2
      · exact absurd hnew2 (by simp)
      · rw [assignFieldsCb_preserves_key hnew2 hfn]
        rfl
    · have hnew2 : structNewCb ct (fun P as2 => metaStructCall ct n P as2 []) cls
          (boundPositional cls bound) [] = .ok o1 := hnew
      simp only [metaStructCall, hget, hnew2, hhook]

/-- Witness for C5: on `Foo` (immutable), writing `a` on the initialized
`Foo(5)` fails with the mutation error; the same write with the marker
still false succeeds; and `Hooky(5)` — whose `__init__` does
`self.bar += 1` — sees `_initialized = False` inside the hook, ending at
`bar = 6` with the marker flipped only at the end. -/
theorem C5_mutation_window_witness :
    fieldSet ctAll 1 clsFoo fldA objFoo5 (.vint 7) =
      .error (.attributeError "Struct is immutable") ∧
    fieldSet ctAll 1 clsFoo fldA ⟨"Foo", [("_initialized", .vbool false), ("a", .vint 5)]⟩
      (.vint 7) =
      .ok ⟨"Foo", [("_initialized", .vbool false), ("a", .vint 7)]⟩ ∧
    lookupV (⟨"Hooky", [("_initialized", .vbool false), ("bar", .vint 5)]⟩ : Obj).dict
      "_initialized" = some (.vbool false) ∧
    metaStructCall ctAll 2 clsHooky [.vint 5] [] =
      .ok ⟨"Hooky", [("_initialized", .vbool true), ("bar", .vint 6)]⟩ := by
  have h := C5_mutation_window ctAll 1 clsFoo fldA objFoo5 (.vint 7) (.vint 7)
    rfl rfl rfl rfl
  have h3 := (C5_mutation_window ctAll 1 clsHooky fldBar objFoo5 (.vint 7) (.vint 7)
      rfl rfl rfl rfl).2.2 1 [.vint 5] [] [("bar", .vint 5)]
    ⟨"Hooky", [("_initialized", .vbool false), ("bar", .vint 5)]⟩ hookyHook
    rfl (by decide) rfl rfl
  refine ⟨h.1, ?_, h3.1, ?_⟩
  · exact h.2.1 ⟨"Foo", [("_initialized", .vbool false), ("a", .vint 5)]⟩ rfl rfl
  · rw [h3.2]
    rfl

/-- C4 (amended): an arity mismatch or unknown keyword at instantiation
surfaces as the *raw* binding `TypeError` — `MetaStruct.__call__` binds
before `Struct.__new__` ever runs, so the "Error constructing" wrapper is
bypassed on that path (it would fire only on a direct `__new__` call,
third conjunct); a field value failing validation inside the constructor's
assignment loop, however, is wrapped into a construction error naming the
declaring type and the offending field and chaining the original exception
as its cause; an assignment-loop failure propagates out of the metaclass
call unchanged. -/
theorem C4_construction_errors (ct : CT) (n : Nat) (cls : StructType)
    (args : List Value) (kwargs : List (String × Value)) :
    (∀ e, get_boundargs cls args kwargs = .error e →
        metaStructCall ct (n + 1) cls args kwargs = .error e) ∧
    (∀ (cb : Cb) (bound : List (String × Value)) (f : FieldDesc) (rest : List FieldDesc)
        (o : Obj) (v : Value) (m : String) (c : Option PyErr),
        lookupV bound f.name = some v →
        fieldSetCb ct cb cls f o v = .error (.typeError m c) →
        assignFieldsCb ct cb cls bound (f :: rest) o =
          .error (.typeError ("Error constructing " ++ cls.name ++ " (field '" ++
            f.name ++ "'): " ++ m) (some (.typeError m c)))) ∧
    (∀ m c, get_boundargs cls args kwargs = .error (.typeError m c) →
        structNew ct n cls args kwargs =
          .error (.typeError ("Error constructing " ++ cls.name ++ ": " ++ m)
            (some (.typeError m c)))) ∧
    (∀ bound e, get_boundargs cls args kwargs = .ok bound →
        structNew ct n cls (boundPositional cls bound) [] = .error e →
        metaStructCall ct (n + 1) cls args kwargs = .error e) := by
  refine ⟨fun e he => ?_, fun cb bound f rest o v m c hv hf => ?_,
    fun m c hm => ?_, fun bound e hb he => ?_⟩
  · simp only [metaStructCall, he]
  · simp only [assignFieldsCb, hv, hf, wrapConstructionErr]
    simp [String.append_assoc]
  · unfold structNew structNewCb
    simp only [hm, wrapConstructionErr]
  · have he2 : structNewCb ct (fun P as2 => metaStructCall ct n P as2 []) cls
        (boundPositional cls bound) [] = .error e := he
    simp only [metaStructCall, hb, he2]

/-- Counterexample to C4 as stated: instantiating one-field `Foo` with two
positional arguments fails with the raw binder error `too many positional
arguments` — an error that names no type (the string does not contain
"Foo") and chains no cause — not with a construction error identifying the
declaring type. -/
theorem C4_construction_errors_cex :
    metaStructCall ctAll 2 clsFoo [.vint 1, .vint 2] [] =
      .error (.typeError "too many positional arguments" none) ∧
    strMentions "too many positional arguments" "Foo" = false := by
  exact ⟨rfl, rfl⟩

/-- Witness for C4: the unknown keyword `bogus` propagates raw from the
metaclass call; an `int` given to `Schema`'s sequence field is wrapped as
`Error constructing Schema (field 'vals'): ...` with the original
`TypeError` chained as cause, and that is exactly what the full
instantiation raises. -/
theorem C4_construction_errors_witness :
    metaStructCall ctAll 2 clsFoo [.vint 5] [("bogus", .vint 1)] =
      .error (.typeError "got an unexpected keyword argument 'bogus'" none) ∧
    assignFieldsCb ctAll (ctorCb ctAll 1) clsSchema [("vals", .vint 5)]
      [fldVals] ⟨"Schema", [("_initialized", .vbool false)]⟩ =
      .error (.typeError
        "Error constructing Schema (field 'vals'): Expected sequence of int; got int instead of sequence"
        (some (.typeError "Expected sequence of int; got int instead of sequence" none))) ∧
    metaStructCall ctAll 2 clsSchema [.vint 5] [] =
      .error (.typeError
        "Error constructing Schema (field 'vals'): Expected sequence of int; got int instead of sequence"
        (some (.typeError "Expected sequence of int; got int instead of sequence" none))) := by
  refine ⟨?_, ?_, rfl⟩
  · exact (C4_construction_errors ctAll 1 clsFoo [.vint 5] [("bogus", .vint 1)]).1 _ rfl
  · exact (C4_construction_errors ctAll 1 clsSchema [] []).2.1 (ctorCb ctAll 1)
      [("vals", .vint 5)] fldVals [] ⟨"Schema", [("_initialized", .vbool false)]⟩
      (.vint 5) _ _ rfl rfl

theorem hashFields_nil (ct : CT) (h : Value → Except PyErr Nat)
    (d : List (String × Value)) : hashFields ct h d [] = .ok [] := by
  rw [hashFields]

theorem hashFields_cons_default (ct : CT) (h : Value → Except PyErr Nat)
    (d : List (String × Value)) (f : FieldDesc) (rest : List FieldDesc) (v : Value)
    (hv : lookupV d f.name = some v) (hs : f.hashS = none) :
    hashFields ct h d (f :: rest) =
      match pyHashE ct h v with
      | .ok x =>
          match hashFields ct h d rest with
          | .ok xs => .ok (x :: xs)
          | .error e => .error e
      | .error e => .error e := by
  rw [hashFields]
  split
  · rename_i heq
    rw [hv] at heq
    simp at heq
  · rename_i v2 heq
    rw [hv] at heq
    injection heq with h2
    subst h2
    simp only [hs]

theorem pyHashE_vint (ct : CT) (h : Value → Except PyErr Nat) (n : Int) :
    pyHashE ct h (.vint n) = h (.vint n) := by
  simp [pyHashE]

/-- Small-step evaluation of `Struct.__hash__` on an instance, used to
evaluate hashing on concrete inputs without unfolding the whole
well-founded recursion. -/
theorem pyHashE_vinst_guard (ct : CT) (h : Value → Except PyErr Nat) (cn : String)
    (c : StructType) (d : List (String × Value))
    (hfind : ctFind ct cn = some c)
    (hnosh : lookupV d "_immutable" = none) :
    (c.immutable = false →
        pyHashE ct h (.vinst cn d) =
          .error (.typeError ("Cannot hash mutable Struct " ++ cn) none)) ∧
    (c.immutable = true → lookupV d "_initialized" = some (.vbool true) →
        pyHashE ct h (.vinst cn d) = (hashFields ct h d c.fields).map hash_seq) ∧
    (c.immutable = true → lookupV d "_initialized" = some (.vbool false) →
        pyHashE ct h (.vinst cn d) =
          .error (.typeError ("Cannot hash uninitialized Struct " ++ cn) none)) := by
  refine ⟨fun hmut => ?_, fun himm hini => ?_, fun himm hini => ?_⟩
  · rw [pyHashE]
    simp [hfind, hnosh, hmut]
  · rw [pyHashE]
    simp [hfind, hnosh, himm, hini, pyTruthy]
  · rw [pyHashE]
    simp [hfind, hnosh, himm, hini, pyTruthy]

theorem hash_seq_perm (l1 l2 : List Nat) (h : l1.Perm l2) :
    hash_seq l1 = hash_seq l2 := by
  unfold hash_seq
  refine h.foldl_eq' (fun x _ y _ z => ?_) 0
  rw [Nat.xor_assoc, Nat.xor_assoc, Nat.xor_comm x y]

/-- C3 (amended): hashing an instance of a mutable class always fails, and
hashing while the `_initialized` marker is still false always fails; on an
immutable, initialized instance `Struct.__hash__` is exactly the xor-fold
(seeded at zero) of the per-field hash contributions, so it succeeds
whenever every contribution does — but only then: a contribution itself can
raise (e.g. a field holding a mutable Struct), so success is not
unconditional. The xor-fold is invariant under permutation of the
contributions. -/
theorem C3_hashing (ct : CT) (h : Value → Except PyErr Nat) (cn : String)
    (c : StructType) (d : List (String × Value))
    (hfind : ctFind ct cn = some c)
    (hnosh : lookupV d "_immutable" = none) :
    (c.immutable = false →
        pyHashE ct h (.vinst cn d) =
          .error (.typeError ("Cannot hash mutable Struct " ++ cn) none)) ∧
    (c.immutable = true → lookupV d "_initialized" = some (.vbool false) →
        pyHashE ct h (.vinst cn d) =
          .error (.typeError ("Cannot hash uninitialized Struct " ++ cn) none)) ∧
    (c.immutable = true → lookupV d "_initialized" = some (.vbool true) →
        pyHashE ct h (.vinst cn d) = (hashFields ct h d c.fields).map hash_seq ∧
        ∀ hs, hashFields ct h d c.fields = .ok hs →
          pyHashE ct h (.vinst cn d) = .ok (hash_seq hs)) ∧
    (∀ l1 l2 : List Nat, l1.Perm l2 → hash_seq l1 = hash_seq l2) := by
  refine ⟨fun hmut => ?_, fun himm hini => ?_, fun himm hini => ⟨?_, fun hs hhs => ?_⟩,
    hash_seq_perm⟩
  · rw [pyHashE]
    simp [hfind, hnosh, hmut]
  · rw [pyHashE]
    simp [hfind, hnosh, himm, hini, pyTruthy]
  · rw [pyHashE]
    simp [hfind, hnosh, himm, hini, pyTruthy]
  · rw [pyHashE]
    simp [hfind, hnosh, himm, hini, pyTruthy, hhs, Except.map]

/-- Counterexample to C3 as stated: `Imm(Mut(0))` — really constructed by
the engine — is an instance of an immutable class, fully initialized, yet
hashing it fails: the `a` field's contribution `hash(<Mut instance>)` hits
`Struct.__hash__`'s own mutable-class guard. So hashing an immutable,
fully-initialized instance does not always succeed. -/
theorem C3_hashing_cex :
    metaStructCall ctAll 2 clsImm
        [.vinst "Mut" [("_initialized", .vbool true), ("b", .vint 0)]] [] =
      .ok ⟨"Imm", [("_initialized", .vbool true),
        ("a", .vinst "Mut" [("_initialized", .vbool true), ("b", .vint 0)])]⟩ ∧
    clsImm.immutable = true ∧
    pyHashE ctAll hZero (.vinst "Imm" [("_initialized", .vbool true),
        ("a", .vinst "Mut" [("_initialized", .vbool true), ("b", .vint 0)])]) =
      .error (.typeError "Cannot hash mutable Struct Mut" none) := by
  refine ⟨rfl, rfl, ?_⟩
  have hMut : pyHashE ctAll hZero
      (.vinst "Mut" [("_initialized", .vbool true), ("b", .vint 0)]) =
      .error (.typeError "Cannot hash mutable Struct Mut" none) :=
    (pyHashE_vinst_guard ctAll hZero "Mut" clsMut
      [("_initialized", .vbool true), ("b", .vint 0)] rfl rfl).1 rfl
  have hImm := (pyHashE_vinst_guard ctAll hZero "Imm" clsImm
      [("_initialized", .vbool true),
       ("a", .vinst "Mut" [("_initialized", .vbool true), ("b", .vint 0)])]
      rfl rfl).2.1 rfl rfl
  rw [hImm]
  rw [show clsImm.fields = [fldA] from rfl]
  rw [hashFields_cons_default ctAll hZero
      [("_initialized", .vbool true),
       ("a", .vinst "Mut" [("_initialized", .vbool true), ("b", .vint 0)])] fldA []
      (.vinst "Mut" [("_initialized", .vbool true), ("b", .vint 0)]) rfl rfl]
  rw [hMut]
  rfl

/-- Witness for C3: the mutable guard, the uninitialized guard, the
successful hash of `Foo(5)` under the stand-in native hash (one field, so
`0 xor 0`), and a permutation instance. -/
theorem C3_hashing_witness :
    pyHashE ctAll hZero (.vinst "Mut" [("_initialized", .vbool true), ("b", .vint 0)]) =
      .error (.typeError "Cannot hash mutable Struct Mut" none) ∧
    pyHashE ctAll hZero (.vinst "Foo" [("_initialized", .vbool false), ("a", .vint 5)]) =
      .error (.typeError "Cannot hash uninitialized Struct Foo" none) ∧
    pyHashE ctAll hZero (.vinst "Foo" [("_initialized", .vbool true), ("a", .vint 5)]) =
      .ok (hash_seq [0]) ∧
    hash_seq [1, 2, 3] = hash_seq [3, 1, 2] := by
  refine ⟨?_, ?_, ?_, ?_⟩
  · exact (C3_hashing ctAll hZero "Mut" clsMut
      [("_initialized", .vbool true), ("b", .vint 0)] rfl rfl).1 rfl
  · exact (C3_hashing ctAll hZero "Foo" clsFoo
      [("_initialized", .vbool false), ("a", .vint 5)] rfl rfl).2.1 rfl rfl
  · refine ((C3_hashing ctAll hZero "Foo" clsFoo
      [("_initialized", .vbool true), ("a", .vint 5)] rfl rfl).2.2.1 rfl rfl).2 [0] ?_
    rw [show clsFoo.fields = [fldA] from rfl]
    rw [hashFields_cons_default ctAll hZero
      [("_initialized", .vbool true), ("a", .vint 5)] fldA [] (.vint 5) rfl rfl]
    rw [pyHashE_vint, hashFields_nil]
    rfl
  · exact (C3_hashing ctAll hZero "Foo" clsFoo [] rfl rfl).2.2.2 [1, 2, 3] [3, 1, 2]
      (by decide)

theorem pyEqFields_dictSet_left (ct : CT) (d1 d2 : List (String × Value))
    (n : String) (v : Value) :
    ∀ fl : List FieldDesc, (∀ f ∈ fl, f.name ≠ n) →
    pyEqFields ct (dictSet d1 n v) d2 fl = pyEqFields ct d1 d2 fl := by
  intro fl
  induction fl with
  | nil => intro _; simp [pyEqFields]
  | cons f rest ih =>
      intro hok
      rw [pyEqFields_cons, pyEqFields_cons,
        lookup_dictSet_ne d1 n f.name v (hok f (by simp)),
        ih fun g hg => hok g (by simp [hg])]

theorem pyEqFields_dictSet_right (ct : CT) (d1 d2 : List (String × Value))
    (n : String) (v : Value) :
    ∀ fl : List FieldDesc, (∀ f ∈ fl, f.name ≠ n) →
    pyEqFields ct d1 (dictSet d2 n v) fl = pyEqFields ct d1 d2 fl := by
  intro fl
  induction fl with
  | nil => intro _; simp [pyEqFields]
  | cons f rest ih =>
      intro hok
      rw [pyEqFields_cons, pyEqFields_cons,
        lookup_dictSet_ne d2 n f.name v (hok f (by simp)),
        ih fun g hg => hok g (by simp [hg])]

theorem hashFields_dictSet_ne (ct : CT) (h : Value → Except PyErr Nat)
    (d : List (String × Value)) (n : String) (v : Value) :
    ∀ fl : List FieldDesc, (∀ f ∈ fl, f.name ≠ n) →
    hashFields ct h (dictSet d n v) fl = hashFields ct h d fl := by
  intro fl
  induction fl with
  | nil => intro _; simp [hashFields]
  | cons f rest ih =>
      intro hok
      rw [hashFields, hashFields,
        lookup_dictSet_ne d n f.name v (hok f (by simp))]
      cases hl : lookupV d f.name with
      | none => rfl
      | some w =>
          rw [ih fun g hg => hok g (by simp [hg])]

theorem pyReprFields_dictSet_ne (ct : CT) (d : List (String × Value))
    (n : String) (v : Value) :
    ∀ fl : List FieldDesc, (∀ f ∈ fl, f.name ≠ n) →
    pyReprFields ct (dictSet d n v) fl = pyReprFields ct d fl := by
  intro fl
  induction fl with
  | nil => intro _; simp [pyReprFields]
  | cons f rest ih =>
      intro hok
      rw [pyReprFields, pyReprFields,
        lookup_dictSet_ne d n f.name v (hok f (by simp)),
        ih fun g hg => hok g (by simp [hg])]

theorem pyStrFields_dictSet_ne (ct : CT) (d : List (String × Value))
    (n : String) (v : Value) :
    ∀ fl : List FieldDesc, (∀ f ∈ fl, f.name ≠ n) →
    pyStrFields ct (dictSet d n v) fl = pyStrFields ct d fl := by
  intro fl
  induction fl with
  | nil => intro _; simp [pyStrFields]
  | cons f rest ih =>
      intro hok
      rw [pyStrFields, pyStrFields,
        lookup_dictSet_ne d n f.name v (hok f (by simp)),
        ih fun g hg => hok g (by simp [hg])]

/-- C10 (amended): on an initialized immutable instance, a write is
intercepted (and rejected) exactly for names bound to a `Field` descriptor
somewhere on the class or its ancestors — the schema of the class itself is
not the boundary: a base-class field outside the subclass's schema still
rejects, and the lifecycle names `_initialized`/`_immutable` are writable
and do alter hashability when shadowed. Any other name is a plain
`__dict__` write that always succeeds, and such an extra attribute is
invisible to equality, hashing, printing and decomposition. -/
theorem C10_extra_attributes (ct : CT) (fuel : Nat) (cls : StructType) (o : Obj)
    (n : String) (v : Value) :
    ((cls.visibleFields.find? fun f => f.name = n) = none →
        objSetattr ct fuel cls o n v = .ok { o with dict := dictSet o.dict n v }) ∧
    (∀ f, (cls.visibleFields.find? fun f2 => f2.name = n) = some f →
        cls.immutable = true →
        lookupV o.dict "_immutable" = none →
        lookupV o.dict "_initialized" = some (.vbool true) →
        ∀ w, fieldTransform ct (ctorCb ct fuel) f v = .ok w →
        objSetattr ct fuel cls o n v = .error (.attributeError "Struct is immutable")) ∧
    ((∀ f ∈ fieldsOf ct o.clsName, f.name ≠ n) → n ≠ "_initialized" → n ≠ "_immutable" →
        (∀ z, structEqRes ct (Obj.toVal { o with dict := dictSet o.dict n v }) z =
            structEqRes ct o.toVal z) ∧
        (∀ z, structEqRes ct z (Obj.toVal { o with dict := dictSet o.dict n v }) =
            structEqRes ct z o.toVal) ∧
        (∀ hfn, pyHashE ct hfn (Obj.toVal { o with dict := dictSet o.dict n v }) =
            pyHashE ct hfn o.toVal) ∧
        pyStr ct (Obj.toVal { o with dict := dictSet o.dict n v }) = pyStr ct o.toVal ∧
        pyRepr ct (Obj.toVal { o with dict := dictSet o.dict n v }) = pyRepr ct o.toVal ∧
        structIterVals ct { o with dict := dictSet o.dict n v } = structIterVals ct o ∧
        structAsdict ct { o with dict := dictSet o.dict n v } = structAsdict ct o ∧
        structLen ct { o with dict := dictSet o.dict n v } = structLen ct o) := by
  refine ⟨fun hnone => ?_, fun f hf himm hnosh hinit w htr => ?_,
    fun hnf hni hnm => ⟨fun z => ?_, fun z => ?_, fun hfn => ?_, ?_, ?_, ?_, ?_, ?_⟩⟩
  · simp [objSetattr, hnone]
  · simp [objSetattr, hf, fieldSet, fieldSetCb, htr, baseFieldSet, readAttr, hnosh,
      himm, hinit, pyTruthy]
  · cases z with
    | vinst cn2 d2 =>
        simp only [structEqRes, Obj.toVal]
        by_cases hcn : o.clsName = cn2
        · simp only [hcn, if_pos rfl]
          rw [pyEqFields_dictSet_left ct o.dict d2 n v _ (hcn ▸ hnf)]
        · simp [hcn]
    | vint a => rfl
    | vbool a => rfl
    | vstr a => rfl
    | vnone => rfl
    | vtuple l => rfl
    | vlist l => rfl
    | vgen l => rfl
  · cases z with
    | vinst cn2 d2 =>
        simp only [structEqRes, Obj.toVal]
        by_cases hcn : cn2 = o.clsName
        · simp only [hcn, if_pos rfl]
          rw [pyEqFields_dictSet_right ct d2 o.dict n v _ hnf]
        · simp [hcn]
    | vint a => rfl
    | vbool a => rfl
    | vstr a => rfl
    | vnone => rfl
    | vtuple l => rfl
    | vlist l => rfl
    | vgen l => rfl
  · have h1 := lookup_dictSet_ne o.dict n "_immutable" v (Ne.symm hnm)
    have h2 := lookup_dictSet_ne o.dict n "_initialized" v (Ne.symm hni)
    rw [Obj.toVal, Obj.toVal, pyHashE, pyHashE]
    cases hcf : ctFind ct o.clsName with
    | none => rfl
    | some c =>
        have h3 := hashFields_dictSet_ne ct hfn o.dict n v c.fields
          (by simpa [fieldsOf, hcf] using hnf)
        simp only [h1, h2, h3]
  · rw [Obj.toVal, Obj.toVal, pyStr, pyStr,
      pyStrFields_dictSet_ne ct o.dict n v _ hnf]
  · rw [Obj.toVal, Obj.toVal, pyRepr, pyRepr,
      pyReprFields_dictSet_ne ct o.dict n v _ hnf]
  · unfold structIterVals
    exact List.map_congr_left fun f hf =>
      by rw [lookup_dictSet_ne o.dict n f.name v (hnf f hf)]
  · unfold structAsdict
    exact List.map_congr_left fun f hf =>
      by rw [lookup_dictSet_ne o.dict n f.name v (hnf f hf)]
  · rfl

/-- Counterexample to C10 as stated: (i) on `B(5)` — `class B(A)` without
field inheritance, schema `[y]` — writing the *non-schema* name `x` is
still rejected, because `x` is a `Field` descriptor on base `A`; (ii) the
non-schema name `_initialized` is writable on a frozen `Foo(5)` and is not
excluded from hashing: the write flips hashing from success to failure. -/
theorem C10_extra_attributes_cex :
    metaStructCall ctAll 2 clsB [.vint 5] [] =
      .ok ⟨"B", [("_initialized", .vbool true), ("y", .vint 5)]⟩ ∧
    (clsB.fields.all fun f => f.name != "x") = true ∧
    objSetattr ctAll 1 clsB ⟨"B", [("_initialized", .vbool true), ("y", .vint 5)]⟩
      "x" (.vint 3) = .error (.attributeError "Struct is immutable") ∧
    objSetattr ctAll 1 clsFoo objFoo5 "_initialized" (.vbool false) =
      .ok ⟨"Foo", [("_initialized", .vbool false), ("a", .vint 5)]⟩ ∧
    pyHashE ctAll hZero objFoo5.toVal = .ok (hash_seq [0]) ∧
    pyHashE ctAll hZero (.vinst "Foo" [("_initialized", .vbool false), ("a", .vint 5)]) =
      .error (.typeError "Cannot hash uninitialized Struct Foo" none) := by
  refine ⟨rfl, rfl, rfl, rfl, ?_, ?_⟩
  · have h1 := (pyHashE_vinst_guard ctAll hZero "Foo" clsFoo
        [("_initialized", .vbool true), ("a", .vint 5)] rfl rfl).2.1 rfl rfl
    rw [show objFoo5.toVal =
        Value.vinst "Foo" [("_initialized", .vbool true), ("a", .vint 5)] from rfl]
    rw [h1]
    rw [show clsFoo.fields = [fldA] from rfl]
    rw [hashFields_cons_default ctAll hZero
      [("_initialized", .vbool true), ("a", .vint 5)] fldA [] (.vint 5) rfl rfl]
    rw [pyHashE_vint, hashFields_nil]
    rfl
  · exact (pyHashE_vinst_guard ctAll hZero "Foo" clsFoo
      [("_initialized", .vbool false), ("a", .vint 5)] rfl rfl).2.2 rfl rfl

/-- Witness for C10: the extra attribute `color` written on a frozen
`Foo(5)` lands in the `__dict__` and leaves printing, hashing, equality
comparison, iteration, the dict view and the length untouched. -/
theorem C10_extra_attributes_witness :
    objSetattr ctAll 1 clsFoo objFoo5 "color" (.vstr "red") =
      .ok ⟨"Foo", [("_initialized", .vbool true), ("a", .vint 5),
        ("color", .vstr "red")]⟩ ∧
    pyStr ctAll (.vinst "Foo" [("_initialized", .vbool true), ("a", .vint 5),
      ("color", .vstr "red")]) = pyStr ctAll objFoo5.toVal ∧
    pyHashE ctAll hZero (.vinst "Foo" [("_initialized", .vbool true), ("a", .vint 5),
      ("color", .vstr "red")]) = pyHashE ctAll hZero objFoo5.toVal ∧
    structEqRes ctAll (.vinst "Foo" [("_initialized", .vbool true), ("a", .vint 5),
      ("color", .vstr "red")]) objFoo5.toVal = structEqRes ctAll objFoo5.toVal
      objFoo5.toVal ∧
    structIterVals ctAll ⟨"Foo", [("_initialized", .vbool true), ("a", .vint 5),
      ("color", .vstr "red")]⟩ = structIterVals ctAll objFoo5 := by
  have h := C10_extra_attributes ctAll 1 clsFoo objFoo5 "color" (.vstr "red")
  have hnf : ∀ f ∈ fieldsOf ctAll objFoo5.clsName, f.name ≠ "color" := by
    intro f hf
    have hfa : f = fldA := by
      simpa [fieldsOf, objFoo5, ctFind, ctAll, clsFoo] using hf
    subst hfa
    simp [fldA]
  have hexcl := h.2.2 hnf (by decide) (by decide)
  refine ⟨?_, ?_, ?_, ?_, ?_⟩
  · exact h.1 rfl
  · exact hexcl.2.2.2.1
  · exact hexcl.2.2.1 hZero
  · exact hexcl.1 objFoo5.toVal
  · exact hexcl.2.2.2.2.2.1

theorem checktype_seq_ok_iterLen {ct : CT} {v : Value} {kind : List Ty} {u : Bool}
    (h : checktype_seq ct v kind u = .ok ()) : ∃ elems, iterLen ct v = some elems := by
  unfold checktype_seq at h
  split at h
  · exact absurd h (by simp)
  · rename_i elems hit
    exact ⟨elems, hit⟩

theorem checktype_seq_retuple {ct : CT} {v : Value} {kind : List Ty} {u : Bool}
    {elems : List Value} (hit : iterLen ct v = some elems)
    (h : checktype_seq ct v kind u = .ok ()) :
    checktype_seq ct (.vtuple elems) kind u = .ok () := by
  unfold checktype_seq at h ⊢
  rw [hit] at h
  simp only [iterLen]
  cases v with
  | vstr s => exact absurd h (by simp)
  | vint a => simpa using h
  | vbool a => simpa using h
  | vnone => simpa using h
  | vtuple l => simpa using h
  | vlist l => simpa using h
  | vgen l => simpa using h
  | vinst cn d => simpa using h

theorem coerceVal_stable {ct : CT} {cb : Cb} {ti : TypedInfo} {v v1 : Value}
    (hco : coerceVal ct cb ti v = .ok v1) (cb2 : Cb) :
    coerceVal ct cb2 ti v1 = .ok v1 := by
  unfold coerceVal at hco
  split at hco
  · rename_i n elems hseq hkind hv
    split at hco
    · rename_i P hP
      split at hco
      · rename_i y hy
        cases hco
        unfold coerceVal
        split
        · rename_i n2 elems2 hseq2 hkind2 hv2
          exact absurd hv2 (by simp [Obj.toVal])
        · rfl
      · exact absurd hco (by simp)
    · rename_i hP
      cases hco
      unfold coerceVal
      split
      · rename_i n2 elems2 hseq2 hkind2 hv2
        rw [hv] at hkind2
        injection hkind2 with h1 h2
        injection h1 with hn
        subst hn
        cases hv2
        rw [hP]
      · rfl
  · rename_i hnot
    cases hco
    unfold coerceVal
    split
    · rename_i elems2 hseq2 hkind2 hv2
      exact (hnot elems2 hseq2 hkind2 hv2 rfl).elim
    · rfl

theorem iterElems_of_iterLen {ct : CT} {v : Value} {elems : List Value}
    (hit : iterLen ct v = some elems) : iterElems ct v = some elems := by
  cases v <;> simp_all [iterElems, iterLen]

theorem checkVal_normalize_stable {ct : CT} {ti : TypedInfo} {v1 : Value}
    (hchk : checkVal ct ti v1 = .ok ()) :
    checkVal ct ti (normalizeVal ct ti v1) = .ok () ∧
    normalizeVal ct ti (normalizeVal ct ti v1) = normalizeVal ct ti v1 := by
  by_cases hnone : (ti.orNone && isNoneV v1) = true
  · have hid : normalizeVal ct ti v1 = v1 := by simp [normalizeVal, hnone]
    rw [hid]
    exact ⟨hchk, hid⟩
  · have hnone' : (ti.orNone && isNoneV v1) = false := by
      revert hnone; cases ti.orNone && isNoneV v1 <;> simp
    by_cases hseq : ti.seq = true
    · have hchk2 : checktype_seq ct v1 ti.kind ti.unique = .ok () := by
        simpa [checkVal, hnone', hseq] using hchk
      obtain ⟨elems, hit⟩ := checktype_seq_ok_iterLen hchk2
      have hnorm : normalizeVal ct ti v1 = .vtuple elems := by
        simp [normalizeVal, hnone', hseq, iterElems_of_iterLen hit]
      rw [hnorm]
      constructor
      · simp only [checkVal, isNoneV, Bool.and_false, hseq, if_true]
        simp only [Bool.false_eq_true, if_false]
        exact checktype_seq_retuple hit hchk2
      · simp [normalizeVal, isNoneV, hseq, iterElems, iterLen]
    · have hseq' : ti.seq = false := by
        revert hseq; cases ti.seq <;> simp
      have hid : normalizeVal ct ti v1 = v1 := by simp [normalizeVal, hseq']
      rw [hid]
      exact ⟨hchk, hid⟩

theorem fieldTransform_stable {ct : CT} {cb : Cb} {f : FieldDesc} {v w : Value}
    (h : fieldTransform ct cb f v = .ok w) (cb2 : Cb) :
    fieldTransform ct cb2 f w = .ok w := by
  unfold fieldTransform at h ⊢
  cases hty : f.typed with
  | none =>
      rw [hty] at h
  | some ti =>
      rw [hty] at h
      have h2 : (match coerceVal ct cb ti v with
          | .error e => .error e
          | .ok v1 =>
              match checkVal ct ti v1 with
              | .error e => .error e
              | .ok _ => .ok (normalizeVal ct ti v1)) = Except.ok w := h
      cases hco : coerceVal ct cb ti v with
      | error e =>
          rw [hco] at h2
          exact absurd h2 (by simp)
      | ok v1 =>
          rw [hco] at h2
          have h2b : (match checkVal ct ti v1 with
              | .error e => .error e
              | .ok _ => .ok (normalizeVal ct ti v1)) = Except.ok w := h2
          cases hchk : checkVal ct ti v1 with
          | error e =>
              rw [hchk] at h2b
              exact absurd h2b (by simp)
          | ok u =>
              cases u
              rw [hchk] at h2b
              have h3 : (Except.ok (normalizeVal ct ti v1) : Except PyErr Value) = .ok w := h2b
              have hw : normalizeVal ct ti v1 = w := by
                injection h3
              obtain ⟨hc2, hn2⟩ := checkVal_normalize_stable hchk
              rw [hw] at hc2 hn2
              have hcoW : coerceVal ct cb2 ti w = .ok w := by
                by_cases hseq : ti.seq = true
                · unfold coerceVal
                  split
                  · rename_i nm2 els2 hseq2 hkind2
                    exact absurd hseq2 (by simp [hseq])
                  · rfl
                · have hseqF : ti.seq = false := by
                    revert hseq; cases ti.seq <;> simp
                  have hwv : w = v1 := by
                    rw [← hw]
                    simp [normalizeVal, hseqF]
                  rw [hwv]
                  exact coerceVal_stable hco cb2
              simp only [hcoW, hc2, hn2]

theorem lookupV_append (d1 d2 : List (String × Value)) (m : String) :
    lookupV (d1 ++ d2) m =
      match lookupV d1 m with
      | some v => some v
      | none => lookupV d2 m := by
  induction d1 with
  | nil => simp [lookupV]
  | cons p rest ih =>
      obtain ⟨k, w⟩ := p
      by_cases hk : k = m
      · simp [lookupV, hk]
      · simp [lookupV, hk, ih]

theorem bindPositional_exact : ∀ (ps : List Param) (args : List Value),
    args.length = ps.length →
    bindPositional ps args [] =
      .ok (List.zipWith (fun (p : Param) a => (p.name, a)) ps args, []) := by
  intro ps
  induction ps with
  | nil =>
      intro args hlen
      cases args with
      | nil => rfl
      | cons a args2 => simp at hlen
  | cons p rest ih =>
      intro args hlen
      cases args with
      | nil => simp at hlen
      | cons a args2 =>
          simp only [bindPositional, lookupV, Option.isSome_none, Bool.false_eq_true,
            if_false]
          rw [ih args2 (by simpa using hlen)]
          rfl

theorem foldl_defaults_noop (params : List Param) :
    ∀ acc : List (String × Value),
    (∀ p ∈ params, (lookupV acc p.name).isSome) →
    params.foldl (fun acc2 p =>
      match lookupV acc2 p.name, p.default with
      | none, some dv => acc2 ++ [(p.name, dv)]
      | _, _ => acc2) acc = acc := by
  induction params with
  | nil => intro acc _; rfl
  | cons p ps ih =>
      intro acc hall
      obtain ⟨w, hw⟩ := Option.isSome_iff_exists.mp (hall p (by simp))
      simp only [List.foldl, hw]
      exact ih acc fun q hq => hall q (by simp [hq])

theorem lookupV_zip_isSome :
    ∀ {fl : List FieldDesc} {ws : List Value}, ws.length = fl.length →
    ∀ nm : String, nm ∈ (fl.map fun f => f.name) →
    (lookupV (List.zipWith (fun (g : FieldDesc) u => (g.name, u)) fl ws) nm).isSome := by
  intro fl
  induction fl with
  | nil => intro ws _ nm hnm; simp at hnm
  | cons g rest ih =>
      intro ws hlen nm hnm
      cases ws with
      | nil => simp at hlen
      | cons w ws2 =>
          simp only [List.zipWith]
          by_cases hg : g.name = nm
          · simp [lookupV, hg]
          · simp only [lookupV, if_neg hg]
            rcases List.mem_map.mp hnm with ⟨f, hf, hfn⟩
            rcases List.mem_cons.mp hf with h | h
            · exact absurd (h ▸ hfn) hg
            · exact ih (by simpa using hlen) nm (List.mem_map.mpr ⟨f, h, hfn⟩)

theorem forall2_lookupV_zip_aux :
    ∀ (fl : List FieldDesc) (ws : List Value) (d0 : List (String × Value)),
    (∀ f ∈ fl, lookupV d0 f.name = none) →
    (fl.map fun f => f.name).Nodup → ws.length = fl.length →
    List.Forall₂ (fun (f : FieldDesc) w =>
      lookupV (d0 ++ List.zipWith (fun (g : FieldDesc) u => (g.name, u)) fl ws) f.name
        = some w) fl ws := by
  intro fl
  induction fl with
  | nil =>
      intro ws d0 _ _ hlen
      cases ws with
      | nil => exact .nil
      | cons w ws2 => simp at hlen
  | cons g rest ih =>
      intro ws d0 hd0 hnd hlen
      cases ws with
      | nil => simp at hlen
      | cons w ws2 =>
          have hnd2 : (g.name ∉ rest.map fun f => f.name) ∧
              (rest.map fun f => f.name).Nodup := by
            rw [List.map_cons, List.nodup_cons] at hnd
            exact hnd
          constructor
          · rw [List.zipWith, lookupV_append, hd0 g (by simp)]
            simp [lookupV]
          · have ih2 := ih ws2 (d0 ++ [(g.name, w)])
              (fun f hf => by
                rw [lookupV_append, hd0 f (by simp [hf])]
                have hne : g.name ≠ f.name := by
                  intro he
                  exact hnd2.1 (he ▸ List.mem_map.mpr ⟨f, hf, rfl⟩)
                simp [lookupV, hne])
              hnd2.2 (by simpa using hlen)
            simpa [List.append_assoc] using ih2

theorem forall2_lookupV_zip {fl : List FieldDesc} {ws : List Value}
    (hnd : (fl.map fun f => f.name).Nodup) (hlen : ws.length = fl.length) :
    List.Forall₂ (fun (f : FieldDesc) w =>
      lookupV (List.zipWith (fun (g : FieldDesc) u => (g.name, u)) fl ws) f.name
        = some w) fl ws := by
  have := forall2_lookupV_zip_aux fl ws [] (fun f _ => rfl) hnd hlen
  simpa using this

theorem forall2_lookup_map_getD {d : List (String × Value)} :
    ∀ {fl : List FieldDesc} {ws : List Value},
    List.Forall₂ (fun (f : FieldDesc) w => lookupV d f.name = some w) fl ws →
    (fl.map fun f => (lookupV d f.name).getD .vnone) = ws := by
  intro fl
  induction fl with
  | nil =>
      intro ws h
      cases h
      rfl
  | cons f rest ih =>
      intro ws h
      cases h with
      | cons hfw hrest =>
          simp only [List.map, hfw, Option.getD_some]
          rw [ih hrest]

theorem forall2_lookup_map_pair {d : List (String × Value)} :
    ∀ {fl : List FieldDesc} {ws : List Value},
    List.Forall₂ (fun (f : FieldDesc) w => lookupV d f.name = some w) fl ws →
    (fl.map fun f => (f.name, (lookupV d f.name).getD .vnone)) =
      List.zipWith (fun (f : FieldDesc) w => (f.name, w)) fl ws := by
  intro fl
  induction fl with
  | nil =>
      intro ws h
      cases h
      rfl
  | cons f rest ih =>
      intro ws h
      cases h with
      | cons hfw hrest =>
          simp only [List.map, hfw, Option.getD_some, List.zipWith]
          rw [ih hrest]

theorem zipWith_params_fields (fl : List FieldDesc) (ws : List Value) :
    List.zipWith (fun (p : Param) a => (p.name, a))
        (fl.map fun f => ({ name := f.name, default := f.default } : Param)) ws =
      List.zipWith (fun (f : FieldDesc) w => (f.name, w)) fl ws := by
  induction fl generalizing ws with
  | nil => rfl
  | cons f rest ih =>
      cases ws with
      | nil => rfl
      | cons w ws2 => simp [List.zipWith, ih]

/-- Reconstruction binding, positional form: feeding exactly one positional
value per field binds them in schema order. -/
theorem get_boundargs_positional (cls : StructType) (ws : List Value)
    (hlen : ws.length = cls.fields.length) :
    get_boundargs cls ws [] =
      .ok (List.zipWith (fun (f : FieldDesc) w => (f.name, w)) cls.fields ws) := by
  unfold get_boundargs
  have hplen : ws.length = (paramsOf cls).length := by simp [paramsOf, hlen]
  have hbp := bindPositional_exact (paramsOf cls) ws hplen
  simp only [hbp, bindKeyword, checkUnexpected, List.find?_nil, List.append_nil]
  rw [paramsOf, zipWith_params_fields]
  rw [foldl_defaults_noop]
  intro p hp
  rcases List.mem_map.mp hp with ⟨f, hf, rfl⟩
  exact lookupV_zip_isSome hlen f.name (List.mem_map.mpr ⟨f, hf, rfl⟩)

theorem bindKeyword_exact {kw : List (String × Value)} :
    ∀ {fl : List FieldDesc} {ws : List Value},
    List.Forall₂ (fun (f : FieldDesc) w => lookupV kw f.name = some w) fl ws →
    bindKeyword kw (fl.map fun f => ({ name := f.name, default := f.default } : Param)) =
      .ok (List.zipWith (fun (f : FieldDesc) w => (f.name, w)) fl ws) := by
  intro fl
  induction fl with
  | nil =>
      intro ws h
      cases h
      rfl
  | cons f rest ih =>
      intro ws h
      cases h with
      | cons hfw hrest =>
          simp only [List.map, bindKeyword, hfw]
          rw [ih hrest]
          rfl

/-- Reconstruction binding, keyword form (`_replace`'s path): a keyword
mapping carrying every field name binds them all in schema order. -/
theorem get_boundargs_kw (cls : StructType) (ws : List Value)
    (hnd : (cls.fields.map fun f => f.name).Nodup)
    (hlen : ws.length = cls.fields.length) :
    get_boundargs cls []
        (List.zipWith (fun (f : FieldDesc) w => (f.name, w)) cls.fields ws) =
      .ok (List.zipWith (fun (f : FieldDesc) w => (f.name, w)) cls.fields ws) := by
  unfold get_boundargs
  simp only [bindPositional]
  rw [paramsOf, bindKeyword_exact (forall2_lookupV_zip hnd hlen)]
  have hunex : checkUnexpected (cls.fields.map fun f =>
      ({ name := f.name, default := f.default } : Param))
      (List.zipWith (fun (f : FieldDesc) w => (f.name, w)) cls.fields ws) = .ok () := by
    unfold checkUnexpected
    rw [List.find?_eq_none.mpr]
    intro kv hkv
    have hk : ∀ (fl : List FieldDesc) (vs : List Value),
        kv ∈ List.zipWith (fun (f : FieldDesc) w => (f.name, w)) fl vs →
        kv.1 ∈ fl.map fun f => f.name := by
      intro fl
      induction fl with
      | nil => intro vs hkv2; simp at hkv2
      | cons f rest ih =>
          intro vs hkv2
          cases vs with
          | nil => simp at hkv2
          | cons w ws2 =>
              simp only [List.zipWith] at hkv2
              rcases List.mem_cons.mp hkv2 with h | h
              · subst h; simp
              · simp only [List.map, List.mem_cons]
                exact Or.inr (ih ws2 h)
    rcases List.mem_map.mp (hk cls.fields ws hkv) with ⟨f, hf, hfn⟩
    simp only [Bool.not_eq_true', List.any_eq_true, not_forall]
    push_neg
    simp only [Bool.not_eq_false]
    refine List.any_eq_true.mpr ⟨{ name := f.name, default := f.default }, ?_, ?_⟩
    · exact List.mem_map.mpr ⟨f, hf, rfl⟩
    · simp [hfn]
  rw [hunex]
  simp only [List.nil_append]
  rw [foldl_defaults_noop]
  intro p hp
  rcases List.mem_map.mp hp with ⟨f, hf, rfl⟩
  exact lookupV_zip_isSome hlen f.name (List.mem_map.mpr ⟨f, hf, rfl⟩)

theorem assignFieldsCb_shape {ct : CT} {cb : Cb} {cls : StructType}
    {bound : List (String × Value)} :
    ∀ {fl : List FieldDesc} {o o2 : Obj},
    assignFieldsCb ct cb cls bound fl o = .ok o2 →
    (∀ f ∈ fl, lookupV o.dict f.name = none) →
    (fl.map fun f => f.name).Nodup →
    ∃ ws : List Value,
      o2 = { o with
        dict := o.dict ++ List.zipWith (fun (f : FieldDesc) w => (f.name, w)) fl ws } ∧
      List.Forall₂ (fun (f : FieldDesc) w => ∃ v,
        lookupV bound f.name = some v ∧ fieldTransform ct cb f v = .ok w) fl ws := by
  intro fl
  induction fl with
  | nil =>
      intro o o2 h _ _
      simp only [assignFieldsCb] at h
      cases h
      exact ⟨[], by simp, .nil⟩
  | cons f rest ih =>
      intro o o2 h hfresh hnd
      simp only [assignFieldsCb] at h
      split at h
      · exact absurd h (by simp)
      · rename_i v hv
        split at h
        · exact absurd h (by simp)
        · rename_i o1 heq
          obtain ⟨w, htr, ho1⟩ := fieldSetCb_ok_dict heq
          have hfresh_f : lookupV o.dict f.name = none := hfresh f (by simp)
          have ho1d : o1.dict = o.dict ++ [(f.name, w)] := by
            rw [ho1, dictSet_fresh _ _ _ hfresh_f]
          have hnd2 : (f.name ∉ rest.map fun f2 => f2.name) ∧
              (rest.map fun f2 => f2.name).Nodup := by
            rw [List.map_cons, List.nodup_cons] at hnd
            exact hnd
          have hfresh2 : ∀ g ∈ rest, lookupV o1.dict g.name = none := by
            intro g hg
            rw [ho1d, lookupV_append, hfresh g (by simp [hg])]
            have hne : f.name ≠ g.name := by
              intro he
              exact hnd2.1 (he ▸ List.mem_map.mpr ⟨g, hg, rfl⟩)
            simp [lookupV, hne]
          obtain ⟨ws, ho2, hfa⟩ := ih h hfresh2 hnd2.2
          refine ⟨w :: ws, ?_, .cons ⟨v, hv, htr⟩ hfa⟩
          rw [ho2, ho1]
          simp [dictSet_fresh _ _ _ hfresh_f, List.append_assoc, List.zipWith]

theorem assignFieldsCb_rerun {ct : CT} {cb : Cb} (cls : StructType)
    {bound : List (String × Value)} :
    ∀ (fl : List FieldDesc) (ws : List Value) (o : Obj),
    List.Forall₂ (fun (f : FieldDesc) w =>
      lookupV bound f.name = some w ∧ fieldTransform ct cb f w = .ok w) fl ws →
    (fl.map fun f => f.name).Nodup →
    (∀ f ∈ fl, lookupV o.dict f.name = none) →
    (∀ f ∈ fl, f.name ≠ "_immutable") →
    lookupV o.dict "_immutable" = none →
    lookupV o.dict "_initialized" = some (.vbool false) →
    (∀ f ∈ fl, f.name ≠ "_initialized") →
    assignFieldsCb ct cb cls bound fl o =
      .ok { o with
        dict := o.dict ++ List.zipWith (fun (f : FieldDesc) w => (f.name, w)) fl ws } := by
  intro fl
  induction fl with
  | nil =>
      intro ws o h _ _ _ _ _ _
      cases h
      simp [assignFieldsCb]
  | cons f rest ih =>
      intro ws o h hnd hfresh hnimm hoimm hoinit hninit
      cases h with
      | cons hfw hrest =>
          obtain ⟨hlook, htr⟩ := hfw
          simp only [assignFieldsCb, hlook]
          rename_i w ws2
          have hset : fieldSetCb ct cb cls f o w =
              .ok { o with dict := dictSet o.dict f.name w } := by
            unfold fieldSetCb
            rw [htr]
            unfold baseFieldSet readAttr
            have hpt : pyTruthy ct (Value.vbool false) = false := rfl
            by_cases himm : pyTruthy ct (.vbool cls.immutable) = true
            · simp [hoimm, hoinit, himm, hpt]
            · simp [hoimm, himm]
          simp only [hset]
          have hnd2 : (f.name ∉ rest.map fun f2 => f2.name) ∧
              (rest.map fun f2 => f2.name).Nodup := by
            rw [List.map_cons, List.nodup_cons] at hnd
            exact hnd
          have hdictf : dictSet o.dict f.name w = o.dict ++ [(f.name, w)] :=
            dictSet_fresh _ _ _ (hfresh f (by simp))
          have hih := ih ws2 { o with dict := dictSet o.dict f.name w } hrest hnd2.2
            (fun g hg => by
              rw [hdictf, lookupV_append, hfresh g (by simp [hg])]
              have hne : f.name ≠ g.name := by
                intro he
                exact hnd2.1 (he ▸ List.mem_map.mpr ⟨g, hg, rfl⟩)
              simp [lookupV, hne])
            (fun g hg => hnimm g (by simp [hg]))
            (by
              rw [hdictf, lookupV_append, hoimm]
              have := hnimm f (by simp)
              simp [lookupV, this])
            (by
              rw [hdictf, lookupV_append, hoinit])
            (fun g hg => hninit g (by simp [hg]))
          rw [hih]
          simp [hdictf, List.append_assoc, List.zipWith]

theorem forall2_and {α β : Type} {R S : α → β → Prop} :
    ∀ {l1 : List α} {l2 : List β}, List.Forall₂ R l1 l2 → List.Forall₂ S l1 l2 →
    List.Forall₂ (fun a b => R a b ∧ S a b) l1 l2 := by
  intro l1
  induction l1 with
  | nil =>
      intro l2 h1 _
      cases h1
      exact .nil
  | cons a rest ih =>
      intro l2 h1 h2
      cases h1 with
      | cons hr hrest1 =>
          cases h2 with
          | cons hs hrest2 => exact .cons ⟨hr, hs⟩ (ih hrest1 hrest2)

/-- The shape every hook-free construction produces: the `__dict__` is the
flipped `_initialized` marker followed by one binding per schema field in
order, each value being the output of the field's write pipeline on some
bound input. -/
theorem metaStructCall_shape {ct : CT} {n : Nat} {cls : StructType} {x : Obj}
    {args : List Value} {kwargs : List (String × Value)}
    (hhook : cls.hook = none)
    (hnd : (cls.fields.map fun f => f.name).Nodup)
    (hni : ∀ f ∈ cls.fields, f.name ≠ "_initialized")
    (hx : metaStructCall ct (n + 1) cls args kwargs = .ok x) :
    ∃ ws : List Value,
      x = ⟨cls.name, ("_initialized", .vbool true) ::
        List.zipWith (fun (f : FieldDesc) w => (f.name, w)) cls.fields ws⟩ ∧
      List.Forall₂ (fun (f : FieldDesc) w => ∃ v,
        fieldTransform ct (ctorCb ct n) f v = .ok w) cls.fields ws := by
  rw [metaStructCall] at hx
  split at hx
  · exact absurd hx (by simp)
  · rename_i bound hget
    split at hx
    · exact absurd hx (by simp)
    · rename_i o1 hnew
      rw [hhook] at hx
      have hx2 : x = ⟨o1.clsName, dictSet o1.dict "_initialized" (.vbool true)⟩ := by
        cases hx
        rfl
      unfold structNewCb at hnew
      split at hnew
      · exact absurd hnew (by simp)
      · rename_i bound2 hget2
        obtain ⟨ws, ho1, hfa⟩ := assignFieldsCb_shape hnew
          (fun f hf => by simp [lookupV, Ne.symm (hni f hf)]) hnd
        refine ⟨ws, ?_, hfa.imp fun f w hfw => ⟨hfw.choose, hfw.choose_spec.2⟩⟩
        rw [hx2, ho1]
        simp [dictSet]

/-- Re-running the constructor on stored (pipeline-stable) values: the
positional path. -/
theorem structNew_rerun {ct : CT} {cb : Cb} {cls : StructType} {ws : List Value}
    (hnd : (cls.fields.map fun f => f.name).Nodup)
    (hni : ∀ f ∈ cls.fields, f.name ≠ "_initialized")
    (hnm : ∀ f ∈ cls.fields, f.name ≠ "_immutable")
    (hlen : ws.length = cls.fields.length)
    (hstab : List.Forall₂ (fun (f : FieldDesc) w =>
      fieldTransform ct cb f w = .ok w) cls.fields ws) :
    structNewCb ct cb cls ws [] =
      .ok ⟨cls.name, ("_initialized", .vbool false) ::
        List.zipWith (fun (f : FieldDesc) w => (f.name, w)) cls.fields ws⟩ := by
  unfold structNewCb
  rw [get_boundargs_positional cls ws hlen]
  have hassign := assignFieldsCb_rerun cls cls.fields ws
    ⟨cls.name, [("_initialized", .vbool false)]⟩
    (forall2_and (forall2_lookupV_zip hnd hlen) hstab)
    hnd
    (fun f hf => by simp [lookupV, Ne.symm (hni f hf)])
    hnm
    (by simp [lookupV])
    (by simp [lookupV])
    hni
  simp only [hassign]
  rfl

/-- Re-running the full constructor on stored values, positional form. -/
theorem metaStructCall_rerun {ct : CT} {m : Nat} {cls : StructType} {ws : List Value}
    (hhook : cls.hook = none)
    (hnd : (cls.fields.map fun f => f.name).Nodup)
    (hni : ∀ f ∈ cls.fields, f.name ≠ "_initialized")
    (hnm : ∀ f ∈ cls.fields, f.name ≠ "_immutable")
    (hlen : ws.length = cls.fields.length)
    (hstab : List.Forall₂ (fun (f : FieldDesc) w =>
      fieldTransform ct (ctorCb ct m) f w = .ok w) cls.fields ws) :
    metaStructCall ct (m + 1) cls ws [] =
      .ok ⟨cls.name, ("_initialized", .vbool true) ::
        List.zipWith (fun (f : FieldDesc) w => (f.name, w)) cls.fields ws⟩ := by
  rw [metaStructCall]
  rw [get_boundargs_positional cls ws hlen]
  have hbp : boundPositional cls
      (List.zipWith (fun (f : FieldDesc) w => (f.name, w)) cls.fields ws) = ws := by
    unfold boundPositional
    exact forall2_lookup_map_getD (forall2_lookupV_zip hnd hlen)
  simp only [hbp]
  have hnew : structNewCb ct (fun P as2 => metaStructCall ct m P as2 []) cls ws [] =
      .ok ⟨cls.name, ("_initialized", .vbool false) ::
        List.zipWith (fun (f : FieldDesc) w => (f.name, w)) cls.fields ws⟩ :=
    structNew_rerun hnd hni hnm hlen hstab
  rw [hnew, hhook]
  simp [dictSet]

/-- Re-running the full constructor on stored values, keyword form
(`_replace` with no overrides). -/
theorem metaStructCall_rerun_kw {ct : CT} {m : Nat} {cls : StructType} {ws : List Value}
    (hhook : cls.hook = none)
    (hnd : (cls.fields.map fun f => f.name).Nodup)
    (hni : ∀ f ∈ cls.fields, f.name ≠ "_initialized")
    (hnm : ∀ f ∈ cls.fields, f.name ≠ "_immutable")
    (hlen : ws.length = cls.fields.length)
    (hstab : List.Forall₂ (fun (f : FieldDesc) w =>
      fieldTransform ct (ctorCb ct m) f w = .ok w) cls.fields ws) :
    metaStructCall ct (m + 1) cls []
        (List.zipWith (fun (f : FieldDesc) w => (f.name, w)) cls.fields ws) =
      .ok ⟨cls.name, ("_initialized", .vbool true) ::
        List.zipWith (fun (f : FieldDesc) w => (f.name, w)) cls.fields ws⟩ := by
  rw [metaStructCall]
  rw [get_boundargs_kw cls ws hnd hlen]
  have hbp : boundPositional cls
      (List.zipWith (fun (f : FieldDesc) w => (f.name, w)) cls.fields ws) = ws := by
    unfold boundPositional
    exact forall2_lookup_map_getD (forall2_lookupV_zip hnd hlen)
  simp only [hbp]
  have hnew : structNewCb ct (fun P as2 => metaStructCall ct m P as2 []) cls ws [] =
      .ok ⟨cls.name, ("_initialized", .vbool false) ::
        List.zipWith (fun (f : FieldDesc) w => (f.name, w)) cls.fields ws⟩ :=
    structNew_rerun hnd hni hnm hlen hstab
  rw [hnew, hhook]
  simp [dictSet]

theorem forall2_exists_right {α β : Type} {R : α → β → Prop} :
    ∀ {l1 : List α} {l2 : List β}, List.Forall₂ R l1 l2 →
    ∀ a ∈ l1, ∃ b, R a b := by
  intro l1
  induction l1 with
  | nil => intro l2 _ a ha; simp at ha
  | cons x rest ih =>
      intro l2 h a ha
      cases h with
      | cons hx hrest =>
          rcases List.mem_cons.mp ha with h1 | h1
          · exact ⟨_, h1 ▸ hx⟩
          · exact ih hrest a h1

/-- C1 (amended): for a Struct type with no user `__init__` hook, sane
schema names and field equality strategies that are reflexive at the stored
values (the default native `==` is; a custom one need not be), invoking the
constructor on a constructed instance's ordered field values reproduces
that very instance — so the round-trip law `construct(type, values of x) ==
x` holds — and `_replace` re-invokes the full constructor on the current
values with the keyword overrides merged in; with no overrides it too
reproduces the instance. -/
theorem C1_roundtrip (ct : CT) (n m : Nat) (cls : StructType) (x : Obj)
    (args : List Value) (kwargs : List (String × Value))
    (hhook : cls.hook = none)
    (hnd : (cls.fields.map fun f => f.name).Nodup)
    (hni : ∀ f ∈ cls.fields, f.name ≠ "_initialized")
    (hnm : ∀ f ∈ cls.fields, f.name ≠ "_immutable")
    (hctx : ctFind ct cls.name = some cls)
    (hx : metaStructCall ct (n + 1) cls args kwargs = .ok x)
    (hrefl : ∀ f ∈ cls.fields, ∀ w, lookupV x.dict f.name = some w →
        fieldEqFn ct f w w = true) :
    (metaStructCall ct (m + 1) cls (storedVals cls x) [] = .ok x ∧
     pyEq ct x.toVal x.toVal = true) ∧
    structReplace ct (m + 1) cls x [] = .ok x ∧
    (∀ (fuel : Nat) (ov : List (String × Value)),
        structReplace ct fuel cls x ov =
          metaStructCall ct fuel cls []
            (ov.foldl (fun acc kv => dictSet acc kv.1 kv.2)
              ((fieldsOf ct x.clsName).map fun f =>
                (f.name, (lookupV x.dict f.name).getD .vnone)))) := by
  obtain ⟨ws, hxshape, hfa⟩ := metaStructCall_shape hhook hnd hni hx
  have hlen : ws.length = cls.fields.length := hfa.length_eq.symm
  have hstab : ∀ cb2 : Cb,
      List.Forall₂ (fun (f : FieldDesc) w => fieldTransform ct cb2 f w = .ok w)
        cls.fields ws :=
    fun cb2 => hfa.imp fun f w hfw => fieldTransform_stable hfw.choose_spec cb2
  have hlook : List.Forall₂ (fun (f : FieldDesc) w =>
      lookupV x.dict f.name = some w) cls.fields ws := by
    rw [hxshape]
    have := forall2_lookupV_zip_aux cls.fields ws [("_initialized", .vbool true)]
      (fun f hf => by simp [lookupV, Ne.symm (hni f hf)]) hnd hlen
    simpa using this
  have hsv : storedVals cls x = ws := forall2_lookup_map_getD hlook
  have hcls : x.clsName = cls.name := by rw [hxshape]
  refine ⟨⟨?_, ?_⟩, ?_, fun fuel ov => rfl⟩
  · rw [hsv, hxshape]
    exact metaStructCall_rerun hhook hnd hni hnm hlen (hstab _)
  · rw [Obj.toVal]
    simp only [pyEq, if_pos rfl]
    rw [hcls]
    simp only [fieldsOf, hctx]
    apply pyEqFields_true
    intro f hf
    obtain ⟨w, hw⟩ := forall2_exists_right hlook f hf
    exact ⟨w, w, hw, hw, hrefl f hf w hw⟩
  · unfold structReplace
    simp only [List.foldl]
    have hf0 : ((fieldsOf ct x.clsName).map fun f =>
        (f.name, (lookupV x.dict f.name).getD .vnone)) =
        List.zipWith (fun (f : FieldDesc) w => (f.name, w)) cls.fields ws := by
      rw [hcls]
      simp only [fieldsOf, hctx]
      exact forall2_lookup_map_pair hlook
    rw [hf0, hxshape]
    exact metaStructCall_rerun_kw hhook hnd hni hnm hlen (hstab _)

/-- Counterexample to C1 as stated: `Hooky` — `bar = Field()` with
`def __init__(self, *a): self.bar += 1`, a class shape taken from the
repository's own tests — really constructs `x = Hooky(5)` with `bar = 6`;
invoking the constructor on x's ordered field values (6) re-runs the hook
and yields `bar = 7`, an instance *not* equal to x. The round-trip law
fails on valid instances of hook-carrying types. -/
theorem C1_roundtrip_cex :
    metaStructCall ctAll 2 clsHooky [.vint 5] [] =
      .ok ⟨"Hooky", [("_initialized", .vbool true), ("bar", .vint 6)]⟩ ∧
    storedVals clsHooky ⟨"Hooky", [("_initialized", .vbool true), ("bar", .vint 6)]⟩ =
      [.vint 6] ∧
    metaStructCall ctAll 2 clsHooky [.vint 6] [] =
      .ok ⟨"Hooky", [("_initialized", .vbool true), ("bar", .vint 7)]⟩ ∧
    pyEq ctAll
      (.vinst "Hooky" [("_initialized", .vbool true), ("bar", .vint 7)])
      (.vinst "Hooky" [("_initialized", .vbool true), ("bar", .vint 6)]) = false := by
  refine ⟨rfl, rfl, rfl, ?_⟩
  simp [pyEq, pyEqFields, fieldsOf, ctFind, ctAll, clsHooky, fldBar, lookupV]

/-- Witness for C1: `Foo(5)` (no hook, default equality) round-trips: the
constructor applied to its stored field values returns the very same
instance, which compares equal to itself field-wise, and `_replace()` with
no overrides reproduces it too. -/
theorem C1_roundtrip_witness :
    metaStructCall ctAll 1 clsFoo (storedVals clsFoo objFoo5) [] = .ok objFoo5 ∧
    pyEq ctAll objFoo5.toVal objFoo5.toVal = true ∧
    structReplace ctAll 1 clsFoo objFoo5 [] = .ok objFoo5 := by
  have h := C1_roundtrip ctAll 0 0 clsFoo objFoo5 [.vint 5] [] rfl
    (by decide) (by decide) (by decide) rfl rfl
    (by
      intro f hf w hw
      simp only [clsFoo, List.mem_singleton] at hf
      subst hf
      have hlv : lookupV objFoo5.dict fldA.name = some (Value.vint 5) := rfl
      rw [hlv] at hw
      injection hw with h2
      subst h2
      simp [fieldEqFn, fldA, pyEq])
  exact ⟨h.1.1, h.1.2, h.2.1⟩

end SimpleStruct
